import Mathlib

/-!
Verification development for the jobintel repository: a shallow embedding of
the ETL + analytics core (raw ingestion dedup, transform, skill extraction,
ingest-run orchestration, analytics queries, source adapters) together with
theorems settling the specification claims about it.

Conventions of the embedding:
* Python dicts (raw payloads) are association lists with first-binding-wins
  lookup; a missing key and an explicit JSON null both read back as SQL NULL.
* SQLAlchemy sessions/tables are explicit lists of row structures; a call that
  commits returns the updated table(s).
* Machine hashing (SHA-256 in `hashlib`) is a fixed injective digest applied to
  a canonical byte string; fingerprint equality is decided by equality of that
  canonical string, which is exactly the stability mechanism the code relies
  on, so the embedding returns the canonical string itself.
* Fallible code (HTTP fetches, `raise`) lives in `Except String`.
-/

/-- A scalar value stored in a raw payload mapping.  The canonical payload
shape of the repository (source/url/title/company/location/posted_at/
description/external_id/content_hash) only carries strings or `None`, which is
all the claims exercise. -/
inductive JVal where
  | s (v : String)
  | null
deriving DecidableEq, Repr

/-- A raw payload: a Python dict modelled as an association list over string
keys (first binding wins, as keys are unique in a dict). -/
abbrev Payload := List (String × JVal)

/-- `d.get(k)`: `none` when the key is absent, mirroring Python returning
`None`. -/
def pget (p : Payload) (k : String) : Option JVal :=
  match p with
  | [] => none
  | (k2, v) :: rest => if k2 = k then some v else pget rest k

/-- `d.setdefault(k, v)`: insert `k ↦ v` only when `k` is absent. -/
def psetdefault (p : Payload) (k : String) (v : JVal) : Payload :=
  match pget p k with
  | some _ => p
  | none => p ++ [(k, v)]

/-- Reading a payload field as SQL text, as SQLAlchemy's
`payload_json[k].as_string()` does: a missing key or a JSON null both yield
SQL NULL (`none`). -/
def pgetStr (p : Payload) (k : String) : Option String :=
  match pget p k with
  | some (JVal.s v) => some v
  | _ => none

/-- Python truthiness of a fetched payload value (`if url:`): only a nonempty
string is truthy among the values of the canonical payload shape. -/
def truthy (v : Option JVal) : Bool :=
  match v with
  | some (JVal.s t) => t ≠ ""
  | _ => false

/-- `d.get(k, default)` for a string-valued field.  (A stored JSON null would
be returned as Python `None` and make the subsequent NOT NULL column insert
fail; no claim exercises that corner, so it reads as the default here.) -/
def pyGetStrD (p : Payload) (k : String) (dflt : String) : String :=
  match pget p k with
  | some (JVal.s v) => v
  | _ => dflt

/-- Python `str.lower()` (ASCII), computed on the character list so that
proofs can evaluate it. -/
def pyLower (s : String) : String := String.mk (s.toList.map Char.toLower)

/-- Python `str.strip()`: drop leading and trailing whitespace. -/
def pyStrip (s : String) : String :=
  String.mk (((s.toList.dropWhile Char.isWhitespace).reverse.dropWhile
    Char.isWhitespace).reverse)

/-! ## `etl/raw.py`: content fingerprint and raw upsert -/

/-- One character of `json.dumps` string escaping (`ensure_ascii=False`): the
two-character escapes for quote, backslash, backspace, form feed, newline,
carriage return and tab, `\u00XX` for the remaining control characters, and
every other character unchanged. -/
def jsonEscapeChar (c : Char) : String :=
  if c = '"' then "\\\""
  else if c = '\\' then "\\\\"
  else if c.toNat = 8 then "\\b"
  else if c.toNat = 9 then "\\t"
  else if c.toNat = 10 then "\\n"
  else if c.toNat = 12 then "\\f"
  else if c.toNat = 13 then "\\r"
  else if c.toNat < 32 then
    let hex := fun (n : Nat) => String.singleton ("0123456789abcdef".toList.getD n '0')
    "\\u00" ++ hex (c.toNat / 16) ++ hex (c.toNat % 16)
  else String.singleton c

/-- A JSON string literal for `v`. -/
def jsonString (v : String) : String :=
  "\"" ++ String.join (v.toList.map jsonEscapeChar) ++ "\""

/-- Serialization of one canonical field value: `payload.get(k)` is `None`
both for a missing key and for an explicit null, and `json.dumps` renders
`None` as `null`. -/
def jsonOfVal : Option JVal → String
  | some (JVal.s v) => jsonString v
  | _ => "null"

/-- The eight canonical fields selected into the `stable` dict of
`compute_content_hash` (`etl/raw.py` lines 15–24), in the order the source
writes them. -/
def canonicalKeys : List String :=
  ["source", "external_id", "url", "title", "company", "location", "posted_at", "description"]

/-- The same eight keys in the order `json.dumps(..., sort_keys=True)`
serializes them. -/
def sortedCanonicalKeys : List String :=
  ["company", "description", "external_id", "location", "posted_at", "source", "title", "url"]

/-- `compute_content_hash` (`etl/raw.py` lines 13–26): the canonical blob
`json.dumps(stable, sort_keys=True, ensure_ascii=False, separators=(",", ":"))`
over the eight selected fields.  The Python code returns the SHA-256 hex
digest of this blob; since SHA-256 is a fixed digest and the code's dedup
design relies on distinct blobs having distinct digests, the embedding
identifies the fingerprint with the blob itself. -/
def compute_content_hash (p : Payload) : String :=
  "\x7b"
    ++ String.intercalate ","
        (sortedCanonicalKeys.map (fun k => jsonString k ++ ":" ++ jsonOfVal (pget p k)))
    ++ "\x7d"

/-- `RawJob` as declared in `models.py` lines 14–23: a surrogate id (implicit
here as list position), `source`, `payload_json` and a server-assigned
`ingested_at` (not consulted by any of the embedded operations on this
table). -/
structure RawJob where
  source : String
  payload_json : Payload
deriving DecidableEq, Repr

/-- The existence filter of `upsert_raw_job` (`etl/raw.py` lines 40–44) against
one stored row: the stored payload's `content_hash` (as SQL text) must equal
the incoming payload's, and, when the incoming payload carries a truthy URL,
the stored URL must match as well.  Comparison with a Python `None` renders as
`IS NULL` under SQLAlchemy, which `Option` equality mirrors. -/
def rawMatches (p2 : Payload) (r : RawJob) : Bool :=
  pgetStr r.payload_json "content_hash" == pgetStr p2 "content_hash"
    && (!truthy (pget p2 "url") || pgetStr r.payload_json "url" == pgetStr p2 "url")

/-- `upsert_raw_job` lines 37–52, once the payload copy has its
`content_hash` defaulted: perform the existence check and insert on miss. -/
def upsert_after_default (store : List RawJob) (p2 : Payload) : Bool × List RawJob :=
  if store.any (rawMatches p2) then (false, store)
  else (true, store ++ [{ source := pyGetStrD p2 "source" "unknown", payload_json := p2 }])

/-- `upsert_raw_job(session, payload)` (`etl/raw.py` lines 29–52).  Note the
source signature has no environment parameter and `RawJob` has no environment
column; the inserted row is determined by the payload alone. -/
def upsert_raw_job (store : List RawJob) (payload : Payload) : Bool × List RawJob :=
  let payload2 := psetdefault payload "content_hash" (JVal.s (compute_content_hash payload))
  upsert_after_default store payload2

/-- `upsert_raw_job` again, with Python dict aliasing made explicit: the heap
is a list of dicts, the caller's argument is the dict at index `ref`.
Line 34 (`payload = dict(payload)`) allocates a fresh copy and rebinds the
local name to it; line 35 (`payload.setdefault(...)`) then mutates only that
fresh dict.  Returns the `(returned bool, store)` pair together with the heap
after the call. -/
def upsert_raw_job_heap (store : List RawJob) (heap : List Payload) (ref : Nat) :
    (Bool × List RawJob) × List Payload :=
  let caller := heap.getD ref []
  let localRef := heap.length
  let heap1 := heap ++ [caller]
  let heap2 :=
    heap1.set localRef (psetdefault caller "content_hash" (JVal.s (compute_content_hash caller)))
  (upsert_after_default store (heap2.getD localRef []), heap2)

/-! ## Data model for analytics (`models.py`, plus the environment column)

`models.py` in this revision of the tree declares `RawJob` and `IngestRun`
without the `environment` column, yet `analytics/queries.py`,
`etl/pipeline.py`, the test suite and the alembic migration
`fbbd657b4749_add_environment_column.py` all read and write that column.  The
environment-carrying row types below therefore model the post-migration
schema the rest of the repository is written against. -/

/-- `Job` as declared in `models.py` lines 26–46.  `posted_at` is a SQL DATE;
it is modelled as the ISO `YYYY-MM-DD` string, whose lexicographic order
coincides with date order.  `title` is a NOT NULL column; it is `Option` here
because `transform_jobs` copies the payload value verbatim and no claim
exercises the integrity error a null title would raise at commit. -/
structure Job where
  id : Option Nat
  title : Option String
  company : Option String
  location : Option String
  url : Option String
  posted_at : Option String
  description : Option String
  hash : Option String
deriving DecidableEq, Repr

/-- `JobSkill` (`models.py` lines 49–60): composite primary key
`(job_id, skill)`. -/
structure JobSkill where
  job_id : Nat
  skill : String
deriving DecidableEq, Repr

/-- Modelled from the spec: `RawRecord` with its `environment` tag
(spec §3, enum development | test | production).  The declaration in
`models.py` lines 14–23 predates the environment column; the column itself is
added by alembic migration `fbbd657b4749` and is what
`analytics/queries.py` filters on. -/
structure RawJobE where
  source : String
  payload_json : Payload
  environment : String
deriving DecidableEq, Repr

/-- Modelled from the spec: `IngestRun` (spec §3) — the declaration in
`models.py` lines 63–85 plus the `environment` column added by alembic
migration `fbbd657b4749` and written by `run_ingest`. -/
structure IngestRunR where
  source : String
  search : Option String
  limit : Option Nat
  environment : String
  status : String
  started_at : Nat
  finished_at : Option Nat
  fetched : Nat
  inserted_raw : Nat
  inserted_jobs : Nat
  inserted_skills : Nat
  warnings : Option (List String)
  error : Option String
deriving DecidableEq, Repr

/-! ## String containment (SQL `ILIKE '%s%'` and client-side search) -/

/-- `needle` is a prefix of `hay`. -/
def litAt : List Char → List Char → Bool
  | [], _ => true
  | _ :: _, [] => false
  | c :: cs, d :: ds => c == d && litAt cs ds

/-- `needle` occurs somewhere in the character list. -/
def containsList (needle : List Char) : List Char → Bool
  | [] => litAt needle []
  | t@(_ :: rest) => litAt needle t || containsList needle rest

/-- Substring test on strings. -/
def strContains (hay needle : String) : Bool :=
  containsList needle.toList hay.toList

/-- `col.ilike('%search%')`: case-insensitive containment, NULL column never
matches.  (A search string containing SQL LIKE wildcards is modelled as plain
text; no claim exercises wildcards.) -/
def ilike (col : Option String) (search : String) : Bool :=
  match col with
  | some s => strContains (pyLower s) (pyLower search)
  | none => false

/-- Python truthiness of an optional string parameter (`if source:`): `None`
and the empty string are falsy, so an empty-string filter is skipped. -/
def optTruthy (v : Option String) : Bool :=
  match v with
  | some s => s ≠ ""
  | none => false

/-! ## `analytics/queries.py` -/

/-- The join condition of `_base_job_query` line 82 and `get_top_skills`
line 171: `RawJob.payload_json["url"].as_string() == Job.url`.  A NULL on
either side never matches. -/
def joinRow (j : Job) (r : RawJobE) : Bool :=
  match j.url with
  | some u => pgetStr r.payload_json "url" == some u
  | none => false

/-- The shared filter block of `_base_job_query` lines 84–98 /
`get_top_skills` lines 174–188: environment (always), source when truthy,
`posted_at` range when present, search over title/company/location when
truthy. -/
def jobFilters (j : Job) (r : RawJobE) (source : Option String)
    (date_from date_to : Option String) (search : Option String)
    (environment : String) : Bool :=
  r.environment == environment
    && (!optTruthy source || r.source == source.getD "")
    && (match date_from with
        | some d => (match j.posted_at with | some pa => decide (d ≤ pa) | none => false)
        | none => true)
    && (match date_to with
        | some d => (match j.posted_at with | some pa => decide (pa ≤ d) | none => false)
        | none => true)
    && (!optTruthy search
        || ilike j.title (search.getD "") || ilike j.company (search.getD "")
        || ilike j.location (search.getD ""))

/-- The row set produced by `_base_job_query` (lines 67–100): inner join of
`jobs` with `raw_jobs` on URL equality, then the filter block. -/
def base_job_rows (jobs : List Job) (raws : List RawJobE) (source : Option String)
    (date_from date_to : Option String) (search : Option String)
    (environment : String) : List (Job × RawJobE) :=
  (jobs.flatMap fun j => raws.map fun r => (j, r)).filter fun jr =>
    joinRow jr.1 jr.2 && jobFilters jr.1 jr.2 source date_from date_to search environment

/-- The result record of `get_kpis`. -/
structure Kpis where
  total_jobs : Nat
  jobs_last_7d : Nat
  unique_companies : Nat
  sources_count : Nat
deriving DecidableEq, Repr

/-- `get_kpis` (`analytics/queries.py` lines 103–150).  `sevenDaysAgo` stands
for `date.today() - timedelta(days=7)` rendered as an ISO date, an input from
the clock. -/
def get_kpis (jobs : List Job) (raws : List RawJobE) (ingest_runs : List IngestRunR)
    (source : Option String) (date_from date_to : Option String)
    (search : Option String) (environment : String) (sevenDaysAgo : String) : Kpis :=
  let baseRows := base_job_rows jobs raws source date_from date_to search environment
  let rows7d := base_job_rows jobs raws source (some sevenDaysAgo) none search environment
  { total_jobs := baseRows.length
    jobs_last_7d := rows7d.length
    unique_companies := ((baseRows.filterMap fun jr => jr.1.company).dedup).length
    sources_count :=
      (((ingest_runs.filter fun ir => ir.status == "success" && ir.environment == environment).map
        (fun ir => ir.source)).dedup).length }

/-- The joined, filtered row set of `get_top_skills` (lines 166–188): one
`(skill, job_id)` entry per `job_skills × jobs × raw_jobs` combination that
satisfies the join conditions and filters. -/
def top_skill_rows (job_skills : List JobSkill) (jobs : List Job) (raws : List RawJobE)
    (source : Option String) (date_from date_to : Option String)
    (search : Option String) (environment : String) : List (String × Nat) :=
  job_skills.flatMap fun sk =>
    jobs.flatMap fun j =>
      raws.filterMap fun r =>
        if j.id == some sk.job_id && joinRow j r
            && jobFilters j r source date_from date_to search environment
        then some (sk.skill, sk.job_id)
        else none

/-- `COUNT(DISTINCT JobSkill.job_id)` within one skill's group. -/
def distinctJobCount (rows : List (String × Nat)) (s : String) : Nat :=
  (((rows.filter fun t => t.1 == s).map fun t => t.2).dedup).length

/-- `GROUP BY JobSkill.skill` over the joined rows: one `(skill, distinct job
count)` per distinct skill, listed in first-appearance order. -/
def group_counts (rows : List (String × Nat)) : List (String × Nat) :=
  ((rows.map fun t => t.1).dedup).map fun s => (s, distinctJobCount rows s)

/-- The single ordering key of `get_top_skills` line 192:
`ORDER BY count DESC` — and nothing else, so rows with equal counts may appear
in any relative order. -/
def sortedByCountDesc (l : List (String × Nat)) : Prop :=
  l.Pairwise fun a b => b.2 ≤ a.2

instance : DecidablePred sortedByCountDesc := fun l => by
  unfold sortedByCountDesc
  infer_instance

/-- The admissible outputs of `get_top_skills` (lines 153–196): any ordering
of the grouped counts that satisfies the query's sole ORDER BY key, truncated
to `limit`.  SQL fixes the multiset of `(skill, count)` rows and the
descending-count order but leaves the relative order of equal counts to the
engine. -/
def IsTopSkillsOutput (job_skills : List JobSkill) (jobs : List Job) (raws : List RawJobE)
    (source : Option String) (date_from date_to : Option String)
    (search : Option String) (limit : Nat) (environment : String)
    (out : List (String × Nat)) : Prop :=
  ∃ full : List (String × Nat),
    full.Perm (group_counts
      (top_skill_rows job_skills jobs raws source date_from date_to search environment))
      ∧ sortedByCountDesc full ∧ out = full.take limit

/-! ## `bucket_expr` (`analytics/queries.py` lines 25–64)

Timestamps are timezone-naive; `day` counts days since 1970-01-01 (a
Thursday), `hour`/`minute` are the time of day.  A bucket value is either a
timestamp whose sub-hour part is zero (both engines produce `HH:00:00`
timestamps for the 6-hour granularity, and Postgres `date_trunc` produces
midnight timestamps) or a bare date (SQLite's `date(...)` results). -/

structure NaiveDT where
  day : Nat
  hour : Nat
  minute : Nat
deriving DecidableEq, Repr

inductive Granularity where
  | sixh
  | day
  | week
deriving DecidableEq, Repr

inductive BucketVal where
  | timestamp (day : Nat) (hour : Nat)
  | dateOnly (day : Nat)
deriving DecidableEq, Repr

/-- `cast(strftime('%H', ts) as Integer)`. -/
def sqlite_strftime_H (ts : NaiveDT) : Nat := ts.hour

/-- `cast(strftime('%w', ts) as Integer)`: day of week, 0 = Sunday.
Day 0 of the embedding is 1970-01-01, a Thursday, so `%w` of day `d` is
`(d + 4) % 7`. -/
def sqlite_strftime_w (ts : NaiveDT) : Nat := (ts.day + 4) % 7

/-- The SQLite branch of `bucket_expr` (lines 46–64): for `6h`, the timestamp
rebuilt from `strftime('%Y-%m-%d ', ts)` and `printf('%02d:00:00', hour -
hour % 6)`; for `day`, `date(ts)`; for `week`, `date(ts, '-N days')` with
`N = (w + 6) % 7` days since Monday. -/
def bucket_expr_sqlite : Granularity → NaiveDT → BucketVal
  | .sixh, ts =>
    BucketVal.timestamp ts.day (sqlite_strftime_H ts - sqlite_strftime_H ts % 6)
  | .day, ts => BucketVal.dateOnly ts.day
  | .week, ts => BucketVal.dateOnly (ts.day - (sqlite_strftime_w ts + 6) % 7)

/-- `extract('hour', ts)`. -/
def pg_extract_hour (ts : NaiveDT) : Nat := ts.hour

/-- Postgres ISO day of week: 1 = Monday … 7 = Sunday; `date_trunc('week')`
truncates to the Monday `isodow - 1` days earlier.  With day 0 a Thursday,
`isodow` of day `d` is `(d + 3) % 7 + 1`. -/
def pg_isodow (ts : NaiveDT) : Nat := (ts.day + 3) % 7 + 1

/-- The Postgres branch of `bucket_expr` (lines 34–44): for `6h`,
`date_trunc('day', ts) + floor(extract(hour)/6) * interval '6 hours'`; for
`day`, `date_trunc('day', ts)`; for `week`, `date_trunc('week', ts)`. -/
def bucket_expr_pg : Granularity → NaiveDT → BucketVal
  | .sixh, ts => BucketVal.timestamp ts.day (6 * (pg_extract_hour ts / 6))
  | .day, ts => BucketVal.timestamp ts.day 0
  | .week, ts => BucketVal.timestamp (ts.day - (pg_isodow ts - 1)) 0

/-- The logical bucket denoted by an engine-level bucket value: the calendar
day and the hour within it (a bare date is the bucket starting at hour 0).
SQLite's `YYYY-MM-DD [HH:00:00]` strings are injectively determined by this
pair, and so are Postgres's truncated timestamps. -/
def interpBucket : BucketVal → Nat × Nat
  | BucketVal.timestamp d h => (d, h)
  | BucketVal.dateOnly d => (d, 0)

/-- Day of week of a day number, 0 = Sunday … 6 = Saturday. -/
def dayOfWeek (d : Nat) : Nat := (d + 4) % 7

/-! ## `etl/transform.py` -/

def isLeapYear (y : Nat) : Bool :=
  (y % 4 == 0 && y % 100 != 0) || y % 400 == 0

def daysInMonth (y m : Nat) : Nat :=
  if m == 2 then (if isLeapYear y then 29 else 28)
  else if m == 4 || m == 6 || m == 9 || m == 11 then 30
  else 31

def digitVal (c : Char) : Option Nat :=
  if c.isDigit then some (c.toNat - 48) else none

def twoDigits (a b : Char) : Option Nat :=
  match digitVal a, digitVal b with
  | some x, some y => some (10 * x + y)
  | _, _ => none

/-- `date.fromisoformat` on the canonical `YYYY-MM-DD` form: a valid Gregorian
calendar date parses to itself (a `date` renders back to the same string),
anything else raises `ValueError`.  (3.11+ also accepts some compact ISO-8601
variants; the repository's payloads use the canonical form, which is the
behaviour the claims exercise.) -/
def parseIsoDate (s : String) : Option String :=
  match s.toList with
  | [y1, y2, y3, y4, c1, m1, m2, c2, d1, d2] =>
    if c1 == '-' && c2 == '-' then
      match twoDigits y1 y2, twoDigits y3 y4, twoDigits m1 m2, twoDigits d1 d2 with
      | some yh, some yl, some m, some d =>
        let y := 100 * yh + yl
        if 1 ≤ m && m ≤ 12 && 1 ≤ d && d ≤ daysInMonth y m then some s else none
      | _, _, _, _ => none
    else none
  | _ => none

/-- `_safe_date` (`etl/transform.py` lines 13–21): falsy values (None, JSON
null, empty string) and unparsable strings become `None`; a valid ISO date is
kept.  (The `isinstance(v, date)` arm never fires for values read from a JSON
payload.) -/
def safe_date (v : Option JVal) : Option String :=
  if !truthy v then none
  else match v with
       | some (JVal.s t) => parseIsoDate t
       | _ => none

/-- `job_hash` (`etl/transform.py` lines 24–38): the canonical string
`"|".join(normalized fields)` whose SHA-256 hex digest the Python code
returns; as with `compute_content_hash`, the embedding identifies the hash
with its canonical pre-image. -/
def job_hash (title company location : Option String) (posted_at : Option String) : String :=
  String.intercalate "|"
    [pyLower (pyStrip (title.getD "")), pyLower (pyStrip (company.getD "")),
      pyLower (pyStrip (location.getD "")), posted_at.getD ""]

/-- The URL a raw payload contributes in `transform_jobs` (line 53); only
consulted when truthy. -/
def urlOf (p : Payload) : String := (pgetStr p "url").getD ""

/-- The secondary content hash `transform_jobs` computes for a payload
(line 63). -/
def transformHash (p : Payload) : String :=
  job_hash (pgetStr p "title") (pgetStr p "company") (pgetStr p "location")
    (safe_date (pget p "posted_at"))

/-- The `Job` row `transform_jobs` inserts for a payload (`etl/transform.py`
lines 69–79), with the autoassigned surrogate key made explicit. -/
def transformedJob (nextId : Nat) (p : Payload) : Job :=
  { id := some nextId
    title := pgetStr p "title"
    company := pgetStr p "company"
    location := pgetStr p "location"
    url := some (urlOf p)
    posted_at := safe_date (pget p "posted_at")
    description := pgetStr p "description"
    hash := some (transformHash p) }

/-- The per-record loop of `transform_jobs` (lines 50–82): skip records with a
falsy URL, compute the secondary hash, skip seen URLs/hashes, otherwise insert
a new `Job` (ids assigned sequentially, as the autoincrement key does) and
extend both seen sets. -/
def transform_step (seenUrls seenHashes : List String) (nextId : Nat)
    (acc : List Job) (inserted : Nat) : List Payload → Nat × List Job
  | [] => (inserted, acc)
  | p :: rest =>
    if !truthy (pget p "url") then
      transform_step seenUrls seenHashes nextId acc inserted rest
    else
      let url := (pgetStr p "url").getD ""
      let title := pgetStr p "title"
      let company := pgetStr p "company"
      let location := pgetStr p "location"
      let posted_at := safe_date (pget p "posted_at")
      let description := pgetStr p "description"
      let h := job_hash title company location posted_at
      if seenUrls.contains url || seenHashes.contains h then
        transform_step seenUrls seenHashes nextId acc inserted rest
      else
        transform_step (url :: seenUrls) (h :: seenHashes) (nextId + 1)
          (acc ++ [transformedJob nextId p]) (inserted + 1) rest

/-- The seeded URL set of `transform_jobs` line 44:
`{u for (u, _) in existing if u}` — the truthy URLs of the existing jobs. -/
def seedUrls (jobs : List Job) : List String :=
  jobs.filterMap fun j =>
    match j.url with
    | some u => if u ≠ "" then some u else none
    | none => none

/-- The seeded hash set of `transform_jobs` line 45. -/
def seedHashes (jobs : List Job) : List String :=
  jobs.filterMap fun j =>
    match j.hash with
    | some h => if h ≠ "" then some h else none
    | none => none

/-- `transform_jobs` (`etl/transform.py` lines 41–85), taking the `jobs` table
and the `payload_json` column of the raw rows in table order.  Seen sets are
seeded from existing rows, keeping only truthy values as the set comprehension
`{u for (u, _) in existing if u}` does.  Returns the inserted count and the
new `jobs` table. -/
def transform_jobs (jobs : List Job) (raw_payloads : List Payload) : Nat × List Job :=
  let nextId := (jobs.filterMap fun j => j.id).foldr max 0 + 1
  transform_step (seedUrls jobs) (seedHashes jobs) nextId jobs 0 raw_payloads

/-! ## `etl/skills.py` -/

/-- `\w` for ASCII text: letters, digits, underscore. -/
def isWordChar (c : Char) : Bool := c.isAlphanum || c == '_'

/-- The needle matches at the head of `t` and is followed by a word boundary
(end of text or a non-word character). -/
def matchHere : List Char → List Char → Bool
  | [], [] => true
  | [], c :: _ => !isWordChar c
  | _ :: _, [] => false
  | c :: cs, d :: ds => c == d && matchHere cs ds

/-- Scan for `\b needle \b`: `prev` is the character before the current
position (none at the start of the text). -/
def wbSearch (needle : List Char) (prev : Option Char) : List Char → Bool
  | [] => (match prev with | none => true | some c => !isWordChar c) && matchHere needle []
  | t@(c :: rest) =>
    ((match prev with | none => true | some c2 => !isWordChar c2) && matchHere needle t)
      || wbSearch needle (some c) rest

/-- `re.search(r"\b lit \b", text)` for a literal alternative `lit` (whose
first and last characters are word characters in every pattern of the
dictionary). -/
def wordBoundaryMatch (lit : String) (text : String) : Bool :=
  wbSearch lit.toList none text.toList

/-- `_SKILL_PATTERNS` (`etl/skills.py` lines 11–22) in dict insertion order;
each regular expression is a union of word-boundary-delimited literal
alternatives, written out here (e.g. `\bpostgres(?:ql)?\b` matches exactly the
words `postgres` and `postgresql`). -/
def SKILL_PATTERNS : List (String × List String) :=
  [("python", ["python"]),
    ("sql", ["sql"]),
    ("pandas", ["pandas"]),
    ("aws", ["aws", "amazon web services"]),
    ("fastapi", ["fastapi"]),
    ("postgres", ["postgres", "postgresql"]),
    ("docker", ["docker"]),
    ("scikit-learn", ["scikit-learn", "scikit learn", "sklearn"]),
    ("pytest", ["pytest"]),
    ("ci", ["ci", "continuous integration"])]

/-- `extract_skills` (`etl/skills.py` lines 25–33): falsy text yields the
empty set; otherwise each pattern is tested against the lower-cased text.  The
returned set is represented as the list of matched skill names in dictionary
order (the names are distinct, so this is a faithful set representation). -/
def extract_skills (text : Option String) : List String :=
  match text with
  | none => []
  | some t =>
    if t = "" then []
    else
      let low := pyLower t
      SKILL_PATTERNS.filterMap fun sa =>
        if sa.2.any fun a => wordBoundaryMatch a low then some sa.1 else none

/-- The inner loop of `extract_skills_for_jobs` (lines 43–49) over one job's
matched skills: skip pairs already present, otherwise add the row and extend
the set (table and set stay in sync, so one list serves as both). -/
def skills_inner (existing : List JobSkill) (inserted : Nat) (i : Nat) :
    List String → Nat × List JobSkill
  | [] => (inserted, existing)
  | s :: rest =>
    if existing.contains { job_id := i, skill := s } then
      skills_inner existing inserted i rest
    else
      skills_inner (existing ++ [{ job_id := i, skill := s }]) (inserted + 1) i rest

/-- The outer loop of `extract_skills_for_jobs` (lines 40–49): jobs without an
id are skipped. -/
def skills_step (existing : List JobSkill) (inserted : Nat) : List Job → Nat × List JobSkill
  | [] => (inserted, existing)
  | j :: rest =>
    match j.id with
    | none => skills_step existing inserted rest
    | some i =>
      let r := skills_inner existing inserted i (extract_skills j.description)
      skills_step r.2 r.1 rest

/-- `extract_skills_for_jobs` (`etl/skills.py` lines 36–52): the existing pair
set is loaded once from the `job_skills` table, then each job's matched skills
are inserted unless present.  Returns the inserted count and the new table. -/
def extract_skills_for_jobs (job_skills : List JobSkill) (jobs : List Job) :
    Nat × List JobSkill :=
  skills_step job_skills 0 jobs

/-- `extract_skills_for_all_jobs` (lines 55–57). -/
def extract_skills_for_all_jobs (job_skills : List JobSkill) (jobs : List Job) :
    Nat × List JobSkill :=
  extract_skills_for_jobs job_skills jobs

/-! ## `etl/pipeline.py` -/

/-- `settings.ENV` default from `core/config.py` line 36. -/
def settings_ENV : String := "development"

/-- The existence filter of the raw upsert against an environment-tagged row:
same condition as `rawMatches` (the dedup query has no environment clause). -/
def rawMatchesE (p2 : Payload) (r : RawJobE) : Bool :=
  pgetStr r.payload_json "content_hash" == pgetStr p2 "content_hash"
    && (!truthy (pget p2 "url") || pgetStr r.payload_json "url" == pgetStr p2 "url")

/-- Modelled from the spec: the environment-accepting raw upsert of contract
§4.3, `upsert(payload, environment) -> boolean` — "insert a new RawRecord
tagged with the given environment and return true".  `etl/pipeline.py` line 65
and the test suite call `upsert_raw_job(session, payload, environment=env)`,
but the copy of `etl/raw.py` in the tree lacks the parameter; the dedup logic
below is that of `etl/raw.py`, with the inserted row additionally tagged. -/
def upsert_raw_job_env (store : List RawJobE) (payload : Payload) (environment : String) :
    Bool × List RawJobE :=
  let payload2 := psetdefault payload "content_hash" (JVal.s (compute_content_hash payload))
  if store.any (rawMatchesE payload2) then (false, store)
  else
    (true, store ++ [{ source := pyGetStrD payload2 "source" "unknown",
                        payload_json := payload2, environment := environment }])

structure EtlResult where
  inserted_raw : Nat
  inserted_jobs : Nat
  inserted_skills : Nat
deriving DecidableEq, Repr

structure IngestResult where
  fetched : Nat
  inserted_raw : Nat
  inserted_jobs : Nat
  inserted_skills : Nat
  warnings : List String
deriving DecidableEq, Repr

/-- The upsert loop of `run_etl_from_payloads` (lines 63–66). -/
def upsert_fold (store : List RawJobE) (n : Nat) (env : String) :
    List Payload → Nat × List RawJobE
  | [] => (n, store)
  | p :: rest =>
    let r := upsert_raw_job_env store p env
    upsert_fold r.2 (if r.1 then n + 1 else n) env rest

/-- `run_etl_from_payloads` (`etl/pipeline.py` lines 42–75): upsert every
payload, then transform, then extract skills.  Returns the result counts and
the three updated tables. -/
def run_etl_from_payloads (raws : List RawJobE) (jobs : List Job) (job_skills : List JobSkill)
    (payloads : List Payload) (environment : Option String) :
    EtlResult × List RawJobE × List Job × List JobSkill :=
  let env := if optTruthy environment then environment.getD "" else settings_ENV
  let ru := upsert_fold raws 0 env payloads
  let tj := transform_jobs jobs (ru.2.map fun r => r.payload_json)
  let sk := extract_skills_for_all_jobs job_skills tj.2
  ({ inserted_raw := ru.1, inserted_jobs := tj.1, inserted_skills := sk.1 },
    ru.2, tj.2, sk.2)

/-- The four persisted tables. -/
structure DBState where
  raw_jobs : List RawJobE
  jobs : List Job
  job_skills : List JobSkill
  ingest_runs : List IngestRunR
deriving DecidableEq, Repr

/-- The observable outcome of `run_ingest`: the database as committed right
after the run row is created (line 115), the database at the end of the call,
and the returned value or re-raised exception. -/
structure RunIngestOutcome where
  committed1 : DBState
  final : DBState
  result : Except String IngestResult
deriving Repr

/-- `run_ingest` (`etl/pipeline.py` lines 78–147).  The fetch
(`fetch_from_source`, line 119) performs network I/O and is the one fallible
step of the `try` block; it enters the embedding as its outcome, either the
`(payloads, warnings)` pair or the raised exception's message.  `t0`/`t1` are
the two `datetime.now` readings.  On success the single run row (created with
status `running`) is updated in place to `success` with counters and finish
time; on an exception it is updated to `failed` with the error message and the
exception is re-raised (`result` is the error). -/
def run_ingest (db : DBState) (fetchResult : Except String (List Payload × List String))
    (source_name search : String) (lim : Nat) (environment : Option String)
    (t0 t1 : Nat) : RunIngestOutcome :=
  let env := if optTruthy environment then environment.getD "" else settings_ENV
  let runRow : IngestRunR :=
    { source := source_name, search := if search ≠ "" then some search else none,
      limit := some lim, environment := env, status := "running", started_at := t0,
      finished_at := none, fetched := 0, inserted_raw := 0, inserted_jobs := 0,
      inserted_skills := 0, warnings := none, error := none }
  let db1 : DBState := { db with ingest_runs := db.ingest_runs ++ [runRow] }
  match fetchResult with
  | Except.error e =>
    let failedRow := { runRow with status := "failed", finished_at := some t1, error := some e }
    { committed1 := db1,
      final := { db1 with ingest_runs := db.ingest_runs ++ [failedRow] },
      result := Except.error e }
  | Except.ok pw =>
    let etl := run_etl_from_payloads db.raw_jobs db.jobs db.job_skills pw.1 (some env)
    let successRow :=
      { runRow with
        status := "success"
        finished_at := some t1
        fetched := pw.1.length
        inserted_raw := etl.1.inserted_raw
        inserted_jobs := etl.1.inserted_jobs
        inserted_skills := etl.1.inserted_skills
        warnings := if pw.2 ≠ [] then some pw.2 else none }
    { committed1 := db1,
      final := { raw_jobs := etl.2.1, jobs := etl.2.2.1, job_skills := etl.2.2.2,
                  ingest_runs := db.ingest_runs ++ [successRow] },
      result := Except.ok { fetched := pw.1.length, inserted_raw := etl.1.inserted_raw,
                            inserted_jobs := etl.1.inserted_jobs,
                            inserted_skills := etl.1.inserted_skills, warnings := pw.2 } }

/-! ## Source adapters (`etl/sources/remotive.py`, `etl/sources/arbeitnow.py`)

HTTP is modelled as an oracle giving the outcome of each request: either a
transport-level failure (the `requests.RequestException` family) or a response
with a status code and a body that is valid JSON or not.  Raised Python
exceptions live in `Except String`. -/

/-- A JSON value as returned by `resp.json()`. -/
inductive AJson where
  | str (v : String)
  | num (n : Int)
  | bool (b : Bool)
  | null
  | arr (items : List AJson)
  | obj (fields : List (String × AJson))
deriving BEq, Repr

/-- `d.get(k)` on a JSON object (the adapters only call `.get` on values the
API contract makes objects; a non-object here reads as a missing key rather
than modelling the `AttributeError` Python would raise, a corner no verified
property touches). -/
def jget (j : AJson) (k : String) : Option AJson :=
  match j with
  | AJson.obj fields => fields.lookup k
  | _ => none

/-- Python truthiness of a JSON value. -/
def jtruthy : AJson → Bool
  | AJson.str v => v ≠ ""
  | AJson.num n => n ≠ 0
  | AJson.bool b => b
  | AJson.null => false
  | AJson.arr xs => !xs.isEmpty
  | AJson.obj fs => !fs.isEmpty

/-- Truthiness of an optional JSON value (missing key falsy). -/
def jtruthyOpt (v : Option AJson) : Bool :=
  match v with
  | some j => jtruthy j
  | none => false

/-- Python `str(x)` of a JSON value (the adapters apply it to ids and inside
f-strings; container values never reach it on any verified path). -/
def ajPyStr : AJson → String
  | AJson.str v => v
  | AJson.num n => toString n
  | AJson.bool b => if b then "True" else "False"
  | AJson.null => "None"
  | AJson.arr _ => "[...]"
  | AJson.obj _ => "{...}"

/-- `str(d.get(k))`: a missing key is `str(None)`. -/
def ajPyStrOpt : Option AJson → String
  | some j => ajPyStr j
  | none => "None"

/-- Coercion of an adapter-side value into the payload value grammar: strings
stay strings, everything else (None, missing, and the container values such as
`tags`, which no verified property inspects) reads as null. -/
def ajToJVal : Option AJson → JVal
  | some (AJson.str v) => JVal.s v
  | _ => JVal.null

/-- The outcome of one HTTP request. -/
inductive HttpResp where
  | ok (status : Nat) (body : Option AJson)
  | netErr (msg : String)
deriving BEq, Repr

/-- `resp.raise_for_status()`: raises `requests.HTTPError` for 4xx/5xx. -/
def raise_for_status (status : Nat) : Except String Unit :=
  if 400 ≤ status then Except.error ("HTTP " ++ toString status) else Except.ok ()

/-- `_TAG_RE.sub(" ", s)` for `_TAG_RE = <[^>]+>`: after a `<`, a match needs
at least one non-`>` character and then a `>`; the whole tag becomes one
space.  Helper: given the characters after a `<`, the characters after the
matching `>`, when the regex matches here. -/
def splitAfterGt : List Char → Option (List Char)
  | [] => none
  | c :: rest =>
    if c == '>' then none
    else
      let rec go : List Char → Option (List Char)
        | [] => none
        | d :: ds => if d == '>' then some ds else go ds
      go rest

/-- Left-to-right, non-overlapping substitution of `<[^>]+>` by one space.
`fuel` bounds the recursion; it strictly dominates the list length, which
shrinks at every step. -/
def stripTagsF : Nat → List Char → List Char
  | 0, t => t
  | _ + 1, [] => []
  | fuel + 1, c :: rest =>
    if c == '<' then
      match splitAfterGt rest with
      | some after => ' ' :: stripTagsF fuel after
      | none => '<' :: stripTagsF fuel rest
    else c :: stripTagsF fuel rest

/-- `_strip_html` (`etl/sources/remotive.py` lines 14–15):
`html.unescape(_TAG_RE.sub(" ", s)).replace("\xa0", " ").strip()`.  The
standard library's entity unescaping is an external function and enters as the
`htmlUnescape` parameter. -/
def strip_html (htmlUnescape : String → String) (s : String) : String :=
  pyStrip ((htmlUnescape (String.mk (stripTagsF (s.toList.length + 1) s.toList))).replace
    "\xa0" " ")

/-- One normalized Remotive payload (`remotive.py` lines 42–56). -/
def remotivePayload (htmlUnescape : String → String) (j : AJson) : Payload :=
  [("source", JVal.s "remotive"),
    ("external_id", JVal.s (ajPyStrOpt (jget j "id"))),
    ("url", ajToJVal (jget j "url")),
    ("title", ajToJVal (jget j "title")),
    ("company", ajToJVal (jget j "company_name")),
    ("location", ajToJVal (jget j "candidate_required_location")),
    ("posted_at", ajToJVal (jget j "publication_date")),
    ("description",
      JVal.s (strip_html htmlUnescape
        (match jget j "description" with
          | some (AJson.str v) => if v ≠ "" then v else ""
          | _ => ""))),
    ("tags", ajToJVal (jget j "tags")),
    ("job_type", ajToJVal (jget j "job_type")),
    ("category", ajToJVal (jget j "category"))]

/-- `fetch_remotive_jobs` (`etl/sources/remotive.py` lines 18–57) for one
request outcome.  The body has no `try` block: a transport error propagates
from `requests.get` (line 35), an HTTP error status from `raise_for_status`
(line 36), and malformed JSON from `resp.json()` (line 37) — all three
surface to the caller as exceptions. -/
def fetch_remotive_jobs (htmlUnescape : String → String) (lim : Nat)
    (resp : HttpResp) : Except String (List Payload) :=
  match resp with
  | HttpResp.netErr m => Except.error m
  | HttpResp.ok status body =>
    match raise_for_status status with
    | Except.error e => Except.error e
    | Except.ok _ =>
      match body with
      | none => Except.error "invalid JSON"
      | some data =>
        let jobsVal := match jget data "jobs" with
          | some v => if jtruthy v then v else AJson.arr []
          | none => AJson.arr []
        let jobsList := match jobsVal with
          | AJson.arr xs => xs
          | _ => []
        Except.ok ((jobsList.take lim).map (remotivePayload htmlUnescape))

/-- `MAX_RETRIES` (`arbeitnow.py` line 27). -/
def MAX_RETRIES : Nat := 3

/-- The attempt loop of `_fetch_page_with_retry` (`arbeitnow.py` lines
36–63): `k` is the index of the next request, `rem` the remaining attempts.
A 429 backs off (the sleep is real time, not modelled) and retries; a
transport error or HTTP error is caught as `requests.RequestException` and
yields `None`; malformed JSON is caught as `ValueError` and yields `None`;
exhausting the attempts yields `None`.  Also returns how many requests were
issued. -/
def fetchPageGo (responses : Nat → HttpResp) : Nat → Nat → Option AJson × Nat
  | k, 0 => (none, k)
  | k, rem + 1 =>
    match responses k with
    | HttpResp.netErr _ => (none, k + 1)
    | HttpResp.ok status body =>
      if status == 429 then fetchPageGo responses (k + 1) rem
      else if 400 ≤ status then (none, k + 1)
      else
        match body with
        | none => (none, k + 1)
        | some j => (some j, k + 1)

/-- `_fetch_page_with_retry` (`arbeitnow.py` lines 31–63), given the HTTP
outcome of each successive attempt for this page. -/
def fetch_page_with_retry (responses : Nat → HttpResp) : Option AJson × Nat :=
  fetchPageGo responses 0 MAX_RETRIES

/-- `_normalize_job` (`arbeitnow.py` lines 122–176).  `md5hex` is the
`hashlib.md5(...).hexdigest()` digest (an external fixed function) and
`tsToIso` is `datetime.fromtimestamp(_, tz=UTC).isoformat()`, `none` when that
raises.  Returns `none` when url or title is falsy. -/
def normalize_job (md5hex : String → String) (tsToIso : Int → Option String)
    (job : AJson) : Option Payload :=
  let slug := jget job "slug"
  let url := jget job "url"
  let title := jget job "title"
  if !jtruthyOpt url || !jtruthyOpt title then none
  else
    let external_id :=
      if jtruthyOpt slug then ajToJVal slug
      else JVal.s ((md5hex (ajPyStrOpt url)).take 16)
    let posted_at :=
      match jget job "created_at" with
      | some (AJson.num n) =>
        if n ≠ 0 then
          match tsToIso n with
          | some iso => JVal.s iso
          | none => JVal.null
        else JVal.null
      | _ => JVal.null
    let descS := match jget job "description" with
      | some (AJson.str v) => v
      | _ => ""
    let companyStr := match jget job "company_name" with
      | none => ""
      | some v => ajPyStr v
    let content_hash := md5hex (ajPyStrOpt title ++ "|" ++ companyStr ++ "|" ++ descS)
    some
      [("source", JVal.s "arbeitnow"),
        ("external_id", external_id),
        ("url", ajToJVal url),
        ("title", ajToJVal title),
        ("company", ajToJVal (jget job "company_name")),
        ("location", ajToJVal (jget job "location")),
        ("description", JVal.s descS),
        ("posted_at", posted_at),
        ("tags", JVal.null),
        ("remote", ajToJVal (jget job "remote")),
        ("content_hash", JVal.s content_hash)]

/-- The client-side search filter of `fetch_arbeitnow_jobs` (lines 98–105):
searchable text is the f-string over the payload's title, company (default
empty) and description (default empty), lower-cased. -/
def arbeitnowSearchHit (search : String) (payload : Payload) : Bool :=
  let fstr := fun (v : Option JVal) (dflt : String) =>
    match v with
    | some (JVal.s t) => t
    | some JVal.null => "None"
    | none => dflt
  let searchable :=
    fstr (pget payload "title") "None" ++ " " ++ fstr (pget payload "company") "" ++ " "
      ++ fstr (pget payload "description") ""
  strContains (pyLower searchable) (pyLower search)

/-- The per-page job loop of `fetch_arbeitnow_jobs` (lines 89–107). -/
def arbeitnowJobsFold (md5hex : String → String) (tsToIso : Int → Option String)
    (search : Option String) (lim : Nat) (acc : List Payload) :
    List AJson → List Payload
  | [] => acc
  | j :: rest =>
    if lim ≤ acc.length then acc
    else
      match normalize_job md5hex tsToIso j with
      | none => arbeitnowJobsFold md5hex tsToIso search lim acc rest
      | some payload =>
        if optTruthy search && !arbeitnowSearchHit (search.getD "") payload then
          arbeitnowJobsFold md5hex tsToIso search lim acc rest
        else arbeitnowJobsFold md5hex tsToIso search lim (acc ++ [payload]) rest

/-- The page loop of `fetch_arbeitnow_jobs` (lines 80–116): `fuel` counts the
pages left under `max_pages = 10`.  A failed page fetch (`data is None`)
breaks the loop, keeping the payloads collected so far; so does an empty
`data` array or a missing `links.next`. -/
def arbeitnowGo (md5hex : String → String) (tsToIso : Int → Option String)
    (responses : Nat → Nat → HttpResp) (search : Option String) (lim : Nat) :
    Nat → Nat → List Payload → List Payload
  | 0, _, acc => acc
  | fuel + 1, page, acc =>
    if lim ≤ acc.length then acc
    else
      match (fetch_page_with_retry (responses page)).1 with
      | none => acc
      | some data =>
        let jobsJ := match jget data "data" with
          | some v => v
          | none => AJson.arr []
        if !jtruthy jobsJ then acc
        else
          let jobsList := match jobsJ with
            | AJson.arr xs => xs
            | _ => []
          let acc2 := arbeitnowJobsFold md5hex tsToIso search lim acc jobsList
          let hasNext := match jget data "links" with
            | some l => jtruthyOpt (jget l "next")
            | none => false
          if !hasNext then acc2
          else arbeitnowGo md5hex tsToIso responses search lim fuel (page + 1) acc2

/-- `fetch_arbeitnow_jobs` (`arbeitnow.py` lines 66–119): pages start at 1,
at most `max_pages = 10` are visited.  `responses page attempt` is the HTTP
outcome of the given attempt for the given page. -/
def fetch_arbeitnow_jobs (md5hex : String → String) (tsToIso : Int → Option String)
    (responses : Nat → Nat → HttpResp) (search : Option String) (lim : Nat) :
    List Payload :=
  arbeitnowGo md5hex tsToIso responses search lim 10 1 []


/-! ## Further definitions used by the verification

Projections of `transform_jobs` internals, the claim-side ordering for the
top-skills ranking, and concrete scenario data. -/

/-- Executable code-point-lexicographic string comparison (the order Python
uses for strings and SQL for text). -/
def charListLt : List Char → List Char → Bool
  | [], [] => false
  | [], _ :: _ => true
  | _ :: _, [] => false
  | c :: cs, d :: ds => c < d || (c == d && charListLt cs ds)

def strLt (a b : String) : Bool := charListLt a.toList b.toList

/-- The ordering the claim asserts of `get_top_skills` output, stated from the
spec's words: descending by count, ties broken deterministically by ascending
skill name.  To be compared with the single `ORDER BY count DESC` key the code
emits. -/
def specTieBreakOrdered (l : List (String × Nat)) : Prop :=
  l.Pairwise fun a b => b.2 < a.2 ∨ (a.2 = b.2 ∧ strLt a.1 b.1)

instance : DecidablePred specTieBreakOrdered := fun l => by
  unfold specTieBreakOrdered
  infer_instance

/-- Two production-tagged raw rows for the tie-break scenario. -/
def c6raws : List RawJobE :=
  [{ source := "remotive", payload_json := [("url", JVal.s "https://x/1")],
      environment := "production" },
    { source := "remotive", payload_json := [("url", JVal.s "https://x/2")],
      environment := "production" }]

/-- Two jobs, one per raw row. -/
def c6jobs : List Job :=
  [{ id := some 1, title := some "Data Engineer", company := none, location := none,
      url := some "https://x/1", posted_at := none, description := some "Uses Python",
      hash := some "h1" },
    { id := some 2, title := some "Cloud Engineer", company := none, location := none,
      url := some "https://x/2", posted_at := none, description := some "Uses AWS",
      hash := some "h2" }]

/-- `python` and `aws` each on exactly one job: a count tie. -/
def c6skills : List JobSkill :=
  [{ job_id := 1, skill := "python" }, { job_id := 2, skill := "aws" }]

/-- Three payloads with one repeated URL and pairwise-distinct content
hashes. -/
def c7payloads : List Payload :=
  [[("url", JVal.s "https://x/1"), ("title", JVal.s "A")],
    [("url", JVal.s "https://x/1"), ("title", JVal.s "B")],
    [("url", JVal.s "https://x/2"), ("title", JVal.s "C")]]

/-- A job whose description mentions two skills. -/
def c8job : Job :=
  { id := some 1, title := some "Data Engineer", company := none, location := none,
    url := some "https://x/1", posted_at := none,
    description := some "Uses Python and AWS", hash := some "h1" }

/-- The content tuple of a raw payload: the four fields
(title, company, location, parsed posted_at) from which `transform_jobs`
derives its secondary hash (spec §3: `content_hash` derived from
title+company+location+posted_at). -/
def contentTuple (p : Payload) :
    Option String × Option String × Option String × Option String :=
  (pgetStr p "title", pgetStr p "company", pgetStr p "location",
    safe_date (pget p "posted_at"))

/-- Three payloads whose content tuples are pairwise distinct and whose URLs
take exactly two values (one repeated once) — yet the first and third tuples
share the joined hash pre-image `a||b||`, because `job_hash` joins fields
with an unescaped `|`. -/
def c7collide : List Payload :=
  [[("url", JVal.s "https://x/1"), ("title", JVal.s "a|"), ("company", JVal.s "b")],
    [("url", JVal.s "https://x/1"), ("title", JVal.s "different")],
    [("url", JVal.s "https://x/2"), ("title", JVal.s "a"), ("company", JVal.s "|b")]]

/-- Is this response a rate-limit response? -/
def is429 : HttpResp → Bool
  | HttpResp.ok status _ => status == 429
  | HttpResp.netErr _ => false

/-- One well-formed Arbeitnow job item. -/
def c9job1 : AJson :=
  AJson.obj [("slug", AJson.str "job-1"), ("url", AJson.str "https://arbeitnow.com/jobs/1"),
    ("title", AJson.str "Data Engineer"), ("company_name", AJson.str "ACME"),
    ("location", AJson.str "Berlin"), ("description", AJson.str "Python and SQL")]

/-- A first page with one job and a next-page link. -/
def c9page1 : AJson :=
  AJson.obj [("data", AJson.arr [c9job1]), ("links", AJson.obj [("next", AJson.str "p2")])]

/-- An HTTP oracle: page 1 succeeds, every later page hits a network error. -/
def c9responses : Nat → Nat → HttpResp :=
  fun page _ => if page == 1 then HttpResp.ok 200 (some c9page1)
    else HttpResp.netErr "connection reset"

/-- The payload `_normalize_job` produces for `c9job1`. -/
def c9payload (md5hex : String → String) : Payload :=
  [("source", JVal.s "arbeitnow"),
    ("external_id", JVal.s "job-1"),
    ("url", JVal.s "https://arbeitnow.com/jobs/1"),
    ("title", JVal.s "Data Engineer"),
    ("company", JVal.s "ACME"),
    ("location", JVal.s "Berlin"),
    ("description", JVal.s "Python and SQL"),
    ("posted_at", JVal.null),
    ("tags", JVal.null),
    ("remote", JVal.null),
    ("content_hash", JVal.s (md5hex "Data Engineer|ACME|Python and SQL"))]

/-! ## Theorems -/

/-- Helper: `getD` on an appended list, inside the original range. -/
theorem getD_append_left_of_lt {α : Type} (l t : List α) (i : Nat) (d : α)
    (h : i < l.length) : (l ++ t).getD i d = l.getD i d := by
  simp [List.getD, List.getElem?_append_left h]

/-- Helper: setting the appended slot of `l ++ [x]` replaces `x`. -/
theorem set_append_length {α : Type} (l : List α) (x y : α) :
    (l ++ [x]).set l.length y = l ++ [y] := by
  induction l with
  | nil => rfl
  | cons a as ih => simp [List.set, ih]

/-- Helper: reading the appended slot of `l ++ [x]`. -/
theorem getD_append_length {α : Type} (l : List α) (x : α) (d : α) :
    (l ++ [x]).getD l.length d = x := by
  simp [List.getD]

/-- C5 (amended): `compute_content_hash` depends only on the values of the
eight canonical fields — payloads that agree on those fields get the same
fingerprint no matter the order their keys were supplied in and no matter
what extra keys are present.  (The whitespace-independence part of the claim
is refuted separately: the code does not normalize whitespace.) -/
theorem compute_content_hash_stable (p1 p2 : Payload)
    (h : ∀ k ∈ canonicalKeys, pget p1 k = pget p2 k) :
    compute_content_hash p1 = compute_content_hash p2 := by
  have hc := h "company" (by decide)
  have hd := h "description" (by decide)
  have he := h "external_id" (by decide)
  have hl := h "location" (by decide)
  have hp := h "posted_at" (by decide)
  have hs := h "source" (by decide)
  have ht := h "title" (by decide)
  have hu := h "url" (by decide)
  simp [compute_content_hash, sortedCanonicalKeys, hc, hd, he, hl, hp, hs, ht, hu]

/-- C5 witness: a payload with an extra key and reordered keys fingerprints
identically to the bare payload. -/
theorem compute_content_hash_stable_witness :
    compute_content_hash [("extra", JVal.s "e"), ("title", JVal.s "x"), ("source", JVal.s "remotive")]
      = compute_content_hash [("source", JVal.s "remotive"), ("title", JVal.s "x")] :=
  compute_content_hash_stable _ _ (by decide)

/-- C5 counterexample: two payloads whose `title` differs only by a leading
space ("incidental whitespace introduced upstream") receive different
fingerprints — the canonical blobs differ, hence so do their SHA-256
digests; the claim's whitespace-independence clause is false. -/
theorem compute_content_hash_whitespace_counterexample :
    compute_content_hash [("source", JVal.s "remotive"), ("title", JVal.s "Data Engineer")]
      ≠ compute_content_hash [("source", JVal.s "remotive"), ("title", JVal.s " Data Engineer")] := by
  decide

/-- C1: what `upsert_raw_job` as written in `etl/raw.py` does — for any
payload, the first call on an empty store inserts exactly one row and returns
true, and a second call with the identical payload inserts nothing and
returns false.  The function's signature takes no environment argument and
`RawJob` as declared in `models.py` has no environment column, so no
environment is recorded (the divergence from the claim: `etl/pipeline.py`
line 65, `tests/fixtures.py` line 84 and
`tests/test_environment_filtering.py` line 83 all call
`upsert_raw_job(session, payload, environment=...)`, which this signature
rejects). -/
theorem upsert_raw_job_idempotent_without_environment (p : Payload) :
    (upsert_raw_job [] p).1 = true
      ∧ (upsert_raw_job [] p).2.length = 1
      ∧ (upsert_raw_job (upsert_raw_job [] p).2 p).1 = false
      ∧ (upsert_raw_job (upsert_raw_job [] p).2 p).2.length = 1 := by
  unfold upsert_raw_job upsert_after_default
  simp [rawMatches]

/-- C10: `upsert_raw_job` does not mutate the caller's dict.  In the explicit
heap model the call leaves every pre-existing dict unchanged — in particular
the argument at `ref` — because the `content_hash` default is written only
into the fresh copy made on line 34; and the call's observable result agrees
with the pure embedding applied to the caller's payload. -/
theorem upsert_raw_job_no_mutation (store : List RawJob) (heap : List Payload)
    (ref i : Nat) (h : i < heap.length) :
    ((upsert_raw_job_heap store heap ref).2).getD i [] = heap.getD i []
      ∧ (upsert_raw_job_heap store heap ref).1 = upsert_raw_job store (heap.getD ref []) := by
  unfold upsert_raw_job_heap upsert_raw_job
  dsimp only
  rw [set_append_length]
  constructor
  · exact getD_append_left_of_lt heap _ i [] h
  · rw [getD_append_length]

/-- C10 witness: at a concrete heap holding one payload, the payload cell is
unchanged by the call. -/
theorem upsert_raw_job_no_mutation_witness :
    ((upsert_raw_job_heap [] [[("title", JVal.s "x")]] 0).2).getD 0 []
        = [[("title", JVal.s "x")]].getD 0 []
      ∧ (upsert_raw_job_heap [] [[("title", JVal.s "x")]] 0).1
        = upsert_raw_job [] ([[("title", JVal.s "x")]].getD 0 []) :=
  upsert_raw_job_no_mutation [] [[("title", JVal.s "x")]] 0 0 (by decide)

/-- Helper: when every raw row is tagged `development`, the production-filtered
job query selects nothing — its filter block starts with the environment
equality. -/
theorem base_job_rows_dev_nil (jobs : List Job) (raws : List RawJobE)
    (source : Option String) (date_from date_to search : Option String)
    (hdev : ∀ r ∈ raws, r.environment = "development") :
    base_job_rows jobs raws source date_from date_to search "production" = [] := by
  unfold base_job_rows
  rw [List.filter_eq_nil_iff]
  intro jr hjr
  obtain ⟨j, hj, hr⟩ := List.mem_flatMap.mp hjr
  obtain ⟨r, hrm, rfl⟩ := List.mem_map.mp hr
  have henv := hdev r hrm
  simp [jobFilters, henv]

/-- Helper: same statement for the joined row set of `get_top_skills`. -/
theorem top_skill_rows_dev_nil (job_skills : List JobSkill) (jobs : List Job)
    (raws : List RawJobE) (source : Option String)
    (date_from date_to search : Option String)
    (hdev : ∀ r ∈ raws, r.environment = "development") :
    top_skill_rows job_skills jobs raws source date_from date_to search "production" = [] := by
  rw [List.eq_nil_iff_forall_not_mem]
  intro x hx
  obtain ⟨sk, hsk, hx1⟩ := List.mem_flatMap.mp hx
  obtain ⟨j, hj, hx2⟩ := List.mem_flatMap.mp hx1
  obtain ⟨r, hrm, hf⟩ := List.mem_filterMap.mp hx2
  have henv := hdev r hrm
  simp [jobFilters, henv] at hf

/-- C2: environment isolation — when every raw row is tagged exclusively
`development`, the KPI query filtered to `production` reports zero total
jobs (and zero last-7-days jobs and zero distinct companies), and every
output `get_top_skills` can produce under the `production` filter is the
empty list: development-tagged data never reaches production-filtered
results. -/
theorem development_data_invisible_under_production_filter
    (jobs : List Job) (raws : List RawJobE) (ingest_runs : List IngestRunR)
    (job_skills : List JobSkill) (source : Option String)
    (date_from date_to search : Option String) (limit : Nat) (sevenDaysAgo : String)
    (hdev : ∀ r ∈ raws, r.environment = "development") :
    (get_kpis jobs raws ingest_runs source date_from date_to search "production"
        sevenDaysAgo).total_jobs = 0
      ∧ (get_kpis jobs raws ingest_runs source date_from date_to search "production"
          sevenDaysAgo).jobs_last_7d = 0
      ∧ (get_kpis jobs raws ingest_runs source date_from date_to search "production"
          sevenDaysAgo).unique_companies = 0
      ∧ ∀ out, IsTopSkillsOutput job_skills jobs raws source date_from date_to search
          limit "production" out → out = [] := by
  have hb := base_job_rows_dev_nil jobs raws source date_from date_to search hdev
  have hb7 := base_job_rows_dev_nil jobs raws source (some sevenDaysAgo) none search hdev
  have ht := top_skill_rows_dev_nil job_skills jobs raws source date_from date_to search hdev
  refine ⟨?_, ?_, ?_, ?_⟩
  · simp [get_kpis, hb]
  · simp [get_kpis, hb7]
  · simp [get_kpis, hb]
  · intro out hout
    obtain ⟨full, hperm, _, houteq⟩ := hout
    rw [ht] at hperm
    simp [group_counts] at hperm
    subst hperm
    simpa using houteq

/-- C2 witness: one development-tagged raw row, production-filtered KPIs count
zero jobs. -/
theorem development_data_invisible_witness :
    (get_kpis []
        [{ source := "sample", payload_json := [("url", JVal.s "https://x/1")],
            environment := "development" }]
        [] none none none none "production" "2026-01-01").total_jobs = 0 :=
  (development_data_invisible_under_production_filter [] _ [] [] none none none none 20
    "2026-01-01" (by decide)).1

/-- C3: time bucketing is engine-independent and aligned.  (1) For every
granularity and timezone-naive timestamp the SQLite and Postgres bucketing
expressions denote the same logical bucket; (2) the 6-hour bucket of a
timestamp is hour 00, 06, 12 or 18 of its own calendar day; (3) the weekly
bucket is the preceding or same Monday; (4) records at hours 01:00, 07:00,
13:00 and 19:00 of any one day fall into four pairwise-distinct 6-hour
buckets, one day bucket and one week bucket, on both engines. -/
theorem bucket_expr_engine_independent :
    (∀ (g : Granularity) (ts : NaiveDT),
        interpBucket (bucket_expr_sqlite g ts) = interpBucket (bucket_expr_pg g ts))
      ∧ (∀ ts : NaiveDT, ts.hour < 24 →
          interpBucket (bucket_expr_sqlite Granularity.sixh ts)
            ∈ [(ts.day, 0), (ts.day, 6), (ts.day, 12), (ts.day, 18)])
      ∧ (∀ ts : NaiveDT, 6 ≤ ts.day →
          dayOfWeek (interpBucket (bucket_expr_sqlite Granularity.week ts)).1 = 1
            ∧ (interpBucket (bucket_expr_sqlite Granularity.week ts)).1 ≤ ts.day
            ∧ ts.day - (interpBucket (bucket_expr_sqlite Granularity.week ts)).1 < 7)
      ∧ (∀ day : Nat,
          List.Pairwise (· ≠ ·)
              ([1, 7, 13, 19].map fun h => bucket_expr_sqlite Granularity.sixh ⟨day, h, 0⟩)
            ∧ List.Pairwise (· ≠ ·)
              ([1, 7, 13, 19].map fun h => bucket_expr_pg Granularity.sixh ⟨day, h, 0⟩)
            ∧ ([1, 7, 13, 19].map fun h =>
                bucket_expr_sqlite Granularity.day ⟨day, h, 0⟩).dedup.length = 1
            ∧ ([1, 7, 13, 19].map fun h =>
                bucket_expr_pg Granularity.day ⟨day, h, 0⟩).dedup.length = 1
            ∧ ([1, 7, 13, 19].map fun h =>
                bucket_expr_sqlite Granularity.week ⟨day, h, 0⟩).dedup.length = 1
            ∧ ([1, 7, 13, 19].map fun h =>
                bucket_expr_pg Granularity.week ⟨day, h, 0⟩).dedup.length = 1) := by
  refine ⟨?_, ?_, ?_, ?_⟩
  · intro g ts
    cases g <;>
      simp [bucket_expr_sqlite, bucket_expr_pg, sqlite_strftime_H, sqlite_strftime_w,
        pg_extract_hour, pg_isodow, interpBucket] <;> omega
  · intro ts h
    simp [bucket_expr_sqlite, sqlite_strftime_H, interpBucket]
    omega
  · intro ts h
    simp [bucket_expr_sqlite, sqlite_strftime_w, interpBucket, dayOfWeek]
    omega
  · intro day
    refine ⟨?_, ?_, ?_, ?_, ?_, ?_⟩ <;>
      simp [bucket_expr_sqlite, bucket_expr_pg, sqlite_strftime_H, sqlite_strftime_w,
        pg_extract_hour, pg_isodow, List.dedup_cons_of_mem]

/-- C3 witness: the alignment conjuncts at the concrete timestamps
`day 100, 13:00` and `day 100, 05:00`, hypotheses discharged. -/
theorem bucket_expr_engine_independent_witness :
    interpBucket (bucket_expr_sqlite Granularity.sixh ⟨100, 13, 0⟩)
        ∈ [(100, 0), (100, 6), (100, 12), (100, 18)]
      ∧ dayOfWeek (interpBucket (bucket_expr_sqlite Granularity.week ⟨100, 5, 0⟩)).1 = 1 :=
  ⟨bucket_expr_engine_independent.2.1 ⟨100, 13, 0⟩ (by decide),
    (bucket_expr_engine_independent.2.2.1 ⟨100, 5, 0⟩ (by decide)).1⟩

/-- C4: the `run_ingest` state machine.  The first commit appends exactly one
`IngestRun` row with status `running`, `started_at` set, empty counters and
no finish time or error.  On a successful fetch the call ends with that same
single row updated to status `success`, `finished_at` set, counters taken
from the ETL outcome and `error` null, and returns the result record.  On a
fetch exception the row ends as status `failed` with `finished_at` set and
`error` carrying the exception's message, the data tables are untouched, and
the exception is re-raised to the caller. -/
theorem run_ingest_state_machine
    (db : DBState) (fetchResult : Except String (List Payload × List String))
    (source_name search : String) (lim : Nat) (environment : Option String) (t0 t1 : Nat) :
    (run_ingest db fetchResult source_name search lim environment t0 t1).committed1
      = { db with ingest_runs := db.ingest_runs ++
            [{ source := source_name
               search := if search ≠ "" then some search else none
               limit := some lim
               environment := if optTruthy environment then environment.getD "" else settings_ENV
               status := "running"
               started_at := t0
               finished_at := none
               fetched := 0
               inserted_raw := 0
               inserted_jobs := 0
               inserted_skills := 0
               warnings := none
               error := none }] }
      ∧ (∀ ps ws, fetchResult = Except.ok (ps, ws) →
          (run_ingest db fetchResult source_name search lim environment t0 t1).final
            = { raw_jobs := (run_etl_from_payloads db.raw_jobs db.jobs db.job_skills ps
                  (some (if optTruthy environment then environment.getD "" else settings_ENV))).2.1
                jobs := (run_etl_from_payloads db.raw_jobs db.jobs db.job_skills ps
                  (some (if optTruthy environment then environment.getD "" else settings_ENV))).2.2.1
                job_skills := (run_etl_from_payloads db.raw_jobs db.jobs db.job_skills ps
                  (some (if optTruthy environment then environment.getD "" else settings_ENV))).2.2.2
                ingest_runs := db.ingest_runs ++
                  [{ source := source_name
                     search := if search ≠ "" then some search else none
                     limit := some lim
                     environment := if optTruthy environment then environment.getD ""
                       else settings_ENV
                     status := "success"
                     started_at := t0
                     finished_at := some t1
                     fetched := ps.length
                     inserted_raw := (run_etl_from_payloads db.raw_jobs db.jobs db.job_skills ps
                       (some (if optTruthy environment then environment.getD ""
                         else settings_ENV))).1.inserted_raw
                     inserted_jobs := (run_etl_from_payloads db.raw_jobs db.jobs db.job_skills ps
                       (some (if optTruthy environment then environment.getD ""
                         else settings_ENV))).1.inserted_jobs
                     inserted_skills := (run_etl_from_payloads db.raw_jobs db.jobs db.job_skills ps
                       (some (if optTruthy environment then environment.getD ""
                         else settings_ENV))).1.inserted_skills
                     warnings := if ws ≠ [] then some ws else none
                     error := none }] }
            ∧ (run_ingest db fetchResult source_name search lim environment t0 t1).result
              = Except.ok
                  { fetched := ps.length
                    inserted_raw := (run_etl_from_payloads db.raw_jobs db.jobs db.job_skills ps
                      (some (if optTruthy environment then environment.getD ""
                        else settings_ENV))).1.inserted_raw
                    inserted_jobs := (run_etl_from_payloads db.raw_jobs db.jobs db.job_skills ps
                      (some (if optTruthy environment then environment.getD ""
                        else settings_ENV))).1.inserted_jobs
                    inserted_skills := (run_etl_from_payloads db.raw_jobs db.jobs db.job_skills ps
                      (some (if optTruthy environment then environment.getD ""
                        else settings_ENV))).1.inserted_skills
                    warnings := ws })
      ∧ (∀ e, fetchResult = Except.error e →
          (run_ingest db fetchResult source_name search lim environment t0 t1).final
            = { db with ingest_runs := db.ingest_runs ++
                  [{ source := source_name
                     search := if search ≠ "" then some search else none
                     limit := some lim
                     environment := if optTruthy environment then environment.getD ""
                       else settings_ENV
                     status := "failed"
                     started_at := t0
                     finished_at := some t1
                     fetched := 0
                     inserted_raw := 0
                     inserted_jobs := 0
                     inserted_skills := 0
                     warnings := none
                     error := some e }] }
            ∧ (run_ingest db fetchResult source_name search lim environment t0 t1).result
              = Except.error e) := by
  refine ⟨?_, ?_, ?_⟩
  · cases fetchResult <;> rfl
  · intro ps ws h
    subst h
    exact ⟨rfl, rfl⟩
  · intro e h
    subst h
    exact ⟨rfl, rfl⟩

/-- C4 witness: a failing fetch on an empty database — the audited run row
ends `failed` with the error recorded and the exception re-raised. -/
theorem run_ingest_state_machine_witness :
    (run_ingest ⟨[], [], [], []⟩ (Except.error "API connection failed") "remotive" "test" 10
        none 0 1).final
      = { raw_jobs := [], jobs := [], job_skills := [],
          ingest_runs :=
            [{ source := "remotive"
               search := some "test"
               limit := some 10
               environment := "development"
               status := "failed"
               started_at := 0
               finished_at := some 1
               fetched := 0
               inserted_raw := 0
               inserted_jobs := 0
               inserted_skills := 0
               warnings := none
               error := some "API connection failed" }] }
      ∧ (run_ingest ⟨[], [], [], []⟩ (Except.error "API connection failed") "remotive" "test" 10
          none 0 1).result = Except.error "API connection failed" :=
  (run_ingest_state_machine ⟨[], [], [], []⟩ (Except.error "API connection failed") "remotive"
    "test" 10 none 0 1).2.2 "API connection failed" rfl

/-- C6 counterexample: with `python` and `aws` tied at one job each,
`[("python", 1), ("aws", 1)]` is an admissible output of `get_top_skills`
(its only ORDER BY key is the descending count), yet it violates the
deterministic ascending-name tie-break the claim asserts — so the claim, which
requires `("aws", 1)` to precede `("python", 1)`, is false of the code. -/
theorem get_top_skills_tiebreak_counterexample :
    IsTopSkillsOutput c6skills c6jobs c6raws none none none none 20 "production"
        [("python", 1), ("aws", 1)]
      ∧ ¬ specTieBreakOrdered [("python", 1), ("aws", 1)] := by
  constructor
  · refine ⟨[("python", 1), ("aws", 1)], ?_, by decide, rfl⟩
    have h : group_counts
        (top_skill_rows c6skills c6jobs c6raws none none none none "production")
          = [("python", 1), ("aws", 1)] := by decide
    rw [h]
  · decide

/-- C6 (amended): every output `get_top_skills` can produce contains at most
`limit` pairs, is sorted descending by count, and pairs each skill with its
count of distinct jobs under the given filters; the relative order of
equal-count skills is not constrained by the query. -/
theorem get_top_skills_counts_and_order
    (job_skills : List JobSkill) (jobs : List Job) (raws : List RawJobE)
    (source : Option String) (date_from date_to search : Option String)
    (limit : Nat) (environment : String) (out : List (String × Nat))
    (h : IsTopSkillsOutput job_skills jobs raws source date_from date_to search limit
      environment out) :
    out.length ≤ limit
      ∧ sortedByCountDesc out
      ∧ ∀ sn ∈ out, sn.2 = distinctJobCount
          (top_skill_rows job_skills jobs raws source date_from date_to search environment)
          sn.1 := by
  obtain ⟨full, hperm, hsort, hout⟩ := h
  subst hout
  refine ⟨List.length_take_le _ _, List.Pairwise.sublist (List.take_sublist _ _) hsort, ?_⟩
  intro sn hsn
  have h1 : sn ∈ full := List.mem_of_mem_take hsn
  have h2 := hperm.mem_iff.mp h1
  unfold group_counts at h2
  obtain ⟨s, _, rfl⟩ := List.mem_map.mp h2
  rfl

/-- C6 witness: the amended theorem applied to the concrete tied scenario. -/
theorem get_top_skills_counts_and_order_witness :
    ([("python", 1), ("aws", 1)] : List (String × Nat)).length ≤ 20 :=
  (get_top_skills_counts_and_order c6skills c6jobs c6raws none none none none 20 "production"
    [("python", 1), ("aws", 1)]
    ⟨[("python", 1), ("aws", 1)],
      by
      have h : group_counts
          (top_skill_rows c6skills c6jobs c6raws none none none none "production")
            = [("python", 1), ("aws", 1)] := by decide
      rw [h], by decide, rfl⟩).1

/-- Helper: `job_hash` over a payload's fields is `transformHash`. -/
theorem transformHash_eq (p : Payload) :
    job_hash (pgetStr p "title") (pgetStr p "company") (pgetStr p "location")
      (safe_date (pget p "posted_at")) = transformHash p := rfl

/-- Helper: the raw URL expression is `urlOf`. -/
theorem urlOf_eq (p : Payload) : (pgetStr p "url").getD "" = urlOf p := rfl

/-- Helper: inserting an element of `T` changes nothing about `· \ T`. -/
theorem insert_sdiff_mem {α : Type} [DecidableEq α] {u : α} (S T : Finset α)
    (h : u ∈ T) : (insert u S) \ T = S \ T := by
  ext x
  simp only [Finset.mem_sdiff, Finset.mem_insert]
  constructor
  · rintro ⟨h1 | h1, h2⟩
    · exact absurd (h1 ▸ h) h2
    · exact ⟨h1, h2⟩
  · rintro ⟨h1, h2⟩
    exact ⟨Or.inr h1, h2⟩

/-- Helper: counting `insert u M \ T` against `M \ insert u T` when `u ∉ T`. -/
theorem card_insert_sdiff {α : Type} [DecidableEq α] {u : α} (M T : Finset α)
    (h : u ∉ T) : ((insert u M) \ T).card = (M \ insert u T).card + 1 := by
  have h1 : (insert u M) \ T = insert u (M \ T) := by
    ext x
    simp only [Finset.mem_sdiff, Finset.mem_insert]
    constructor
    · rintro ⟨h1 | h1, h2⟩
      · exact Or.inl h1
      · exact Or.inr ⟨h1, h2⟩
    · rintro (rfl | ⟨h1, h2⟩)
      · exact ⟨Or.inl rfl, h⟩
      · exact ⟨Or.inr h1, h2⟩
  have h2 : M \ insert u T = (M \ T).erase u := by
    ext x
    simp only [Finset.mem_sdiff, Finset.mem_insert, Finset.mem_erase]
    tauto
  rw [h1, h2]
  by_cases hm : u ∈ M \ T
  · rw [Finset.insert_eq_self.mpr hm, Finset.card_erase_add_one hm]
  · rw [Finset.card_insert_of_not_mem hm, Finset.erase_eq_of_not_mem hm]

/-- Helper: the inserted count of the transform loop is the number of distinct
incoming URLs not yet seen, provided every payload has a truthy URL and the
secondary hashes neither collide among themselves nor with the seen set. -/
theorem transform_step_count (ps : List Payload) :
    ∀ (su sh : List String) (n : Nat) (acc : List Job) (i : Nat),
      (∀ p ∈ ps, truthy (pget p "url") = true) →
      (∀ p ∈ ps, transformHash p ∉ sh) →
      ((ps.map transformHash).Nodup) →
      (transform_step su sh n acc i ps).1
        = i + ((ps.map urlOf).toFinset \ su.toFinset).card := by
  induction ps with
  | nil =>
    intro su sh n acc i _ _ _
    simp [transform_step]
  | cons p rest ih =>
    intro su sh n acc i hurl hsh hnd
    have hturl : truthy (pget p "url") = true := hurl p (List.mem_cons_self _ _)
    rw [List.map_cons, List.nodup_cons] at hnd
    simp only [transform_step, hturl, Bool.not_true, Bool.false_eq_true, if_false]
    simp only [urlOf_eq, transformHash_eq]
    cases hcu : su.contains (urlOf p) with
    | true =>
      simp only [hcu, Bool.true_or, if_true]
      rw [ih su sh n acc i (fun q hq => hurl q (List.mem_cons_of_mem _ hq))
        (fun q hq => hsh q (List.mem_cons_of_mem _ hq)) hnd.2]
      have hmem : urlOf p ∈ su.toFinset := by
        rw [List.mem_toFinset]
        simpa using hcu
      rw [show (p :: rest).map urlOf = urlOf p :: rest.map urlOf from rfl,
        List.toFinset_cons, insert_sdiff_mem _ _ hmem]
    | false =>
      cases hch : sh.contains (transformHash p) with
      | true =>
        exact absurd (by simpa using hch) (hsh p (List.mem_cons_self _ _))
      | false =>
        simp only [hcu, hch, Bool.or_self, if_false, Bool.false_eq_true]
        rw [ih (urlOf p :: su) (transformHash p :: sh) (n + 1) _ (i + 1)
          (fun q hq => hurl q (List.mem_cons_of_mem _ hq))
          (fun q hq => by
            simp only [List.mem_cons]
            push_neg
            refine ⟨fun hqe => hnd.1 ?_, hsh q (List.mem_cons_of_mem _ hq)⟩
            rw [← hqe]
            exact List.mem_map_of_mem _ hq)
          hnd.2]
        have hnm : urlOf p ∉ su.toFinset := by
          rw [List.mem_toFinset]
          simpa using hcu
        rw [show (p :: rest).map urlOf = urlOf p :: rest.map urlOf from rfl,
          List.toFinset_cons, List.toFinset_cons, card_insert_sdiff _ _ hnm]
        omega

/-- Helper: a truthy payload URL is a nonempty string. -/
theorem urlOf_ne_empty (p : Payload) (h : truthy (pget p "url") = true) : urlOf p ≠ "" := by
  unfold truthy at h
  unfold urlOf pgetStr
  cases hh : pget p "url" with
  | none => simp [hh] at h
  | some v =>
    cases v with
    | s t =>
      simp [hh] at h ⊢
      exact h
    | null => simp [hh] at h

/-- Helper: the seed sets of an extended jobs table. -/
theorem seedUrls_append (acc : List Job) (j : Job) :
    seedUrls (acc ++ [j]) = seedUrls acc ++ seedUrls [j] :=
  List.filterMap_append _ _ _

theorem seedHashes_append (acc : List Job) (j : Job) :
    seedHashes (acc ++ [j]) = seedHashes acc ++ seedHashes [j] :=
  List.filterMap_append _ _ _

/-- Helper: the seed contribution of a single job row. -/
theorem seedUrls_singleton (j : Job) (u : String) (hu : j.url = some u) (hne : u ≠ "") :
    seedUrls [j] = [u] := by
  simp [seedUrls, hu, hne]

theorem seedHashes_singleton (j : Job) (h : String) (hh : j.hash = some h) (hne : h ≠ "") :
    seedHashes [j] = [h] := by
  simp [seedHashes, hh, hne]

theorem seedHashes_singleton_empty (j : Job) (hh : j.hash = some "") :
    seedHashes [j] = [] := by
  simp [seedHashes, hh]

/-- Helper: the transform loop preserves distinctness of the stored URLs and
hashes whenever the seen sets cover the accumulated rows. -/
theorem transform_step_nodup (ps : List Payload) :
    ∀ (su sh : List String) (n : Nat) (acc : List Job) (i : Nat),
      (∀ u ∈ seedUrls acc, u ∈ su) →
      (∀ h2 ∈ seedHashes acc, h2 ∈ sh) →
      (seedUrls acc).Nodup →
      (seedHashes acc).Nodup →
      (seedUrls (transform_step su sh n acc i ps).2).Nodup
        ∧ (seedHashes (transform_step su sh n acc i ps).2).Nodup := by
  induction ps with
  | nil =>
    intro su sh n acc i _ _ h3 h4
    exact ⟨by simpa [transform_step] using h3, by simpa [transform_step] using h4⟩
  | cons p rest ih =>
    intro su sh n acc i hsu hsh hndu hndh
    cases hturl : truthy (pget p "url") with
    | false =>
      simp only [transform_step, hturl, Bool.not_false, if_true]
      exact ih su sh n acc i hsu hsh hndu hndh
    | true =>
      simp only [transform_step, hturl, Bool.not_true, Bool.false_eq_true, if_false]
      simp only [urlOf_eq, transformHash_eq]
      cases hc : su.contains (urlOf p) || sh.contains (transformHash p) with
      | true =>
        simp only [hc, if_true]
        exact ih su sh n acc i hsu hsh hndu hndh
      | false =>
        simp only [hc, Bool.false_eq_true, if_false]
        rw [Bool.or_eq_false_iff] at hc
        have hcu : urlOf p ∉ su := by simpa using hc.1
        have hch : transformHash p ∉ sh := by simpa using hc.2
        have hju := seedUrls_singleton (transformedJob n p) (urlOf p) rfl (urlOf_ne_empty p hturl)
        apply ih (urlOf p :: su) (transformHash p :: sh) (n + 1) _ (i + 1)
        · intro u hu
          rw [seedUrls_append, List.mem_append, hju] at hu
          rcases hu with hu | hu
          · exact List.mem_cons_of_mem _ (hsu u hu)
          · simp only [List.mem_singleton] at hu
            subst hu
            exact List.mem_cons_self _ _
        · intro x hx
          rw [seedHashes_append, List.mem_append] at hx
          rcases hx with hx | hx
          · exact List.mem_cons_of_mem _ (hsh x hx)
          · by_cases hth : transformHash p = ""
            · rw [seedHashes_singleton_empty (transformedJob n p) (by rw [transformedJob, hth])] at hx
              exact absurd hx (List.not_mem_nil x)
            · rw [seedHashes_singleton (transformedJob n p) (transformHash p) rfl hth] at hx
              simp only [List.mem_singleton] at hx
              subst hx
              exact List.mem_cons_self _ _
        · rw [seedUrls_append, hju]
          refine List.Nodup.append hndu (List.nodup_singleton _) ?_
          intro a ha hb
          simp only [List.mem_singleton] at hb
          subst hb
          exact hcu (hsu _ ha)
        · rw [seedHashes_append]
          by_cases hth : transformHash p = ""
          · rw [seedHashes_singleton_empty (transformedJob n p) (by rw [transformedJob, hth])]
            simpa using hndh
          · rw [seedHashes_singleton (transformedJob n p) (transformHash p) rfl hth]
            refine List.Nodup.append hndh (List.nodup_singleton _) ?_
            intro a ha hb
            simp only [List.mem_singleton] at hb
            subst hb
            exact hch (hsh _ ha)

/-- Helper: every row the transform loop returns was either already present
or derives from a payload with a truthy URL, whose URL it carries. -/
theorem transform_step_provenance (ps : List Payload) :
    ∀ (su sh : List String) (n : Nat) (acc : List Job) (i : Nat),
      ∀ j ∈ (transform_step su sh n acc i ps).2,
        j ∈ acc ∨ ∃ p ∈ ps, truthy (pget p "url") = true ∧ j.url = some (urlOf p) := by
  induction ps with
  | nil =>
    intro su sh n acc i j hj
    exact Or.inl (by simpa [transform_step] using hj)
  | cons p rest ih =>
    intro su sh n acc i j hj
    cases hturl : truthy (pget p "url") with
    | false =>
      rw [show transform_step su sh n acc i (p :: rest)
          = transform_step su sh n acc i rest by
        simp only [transform_step, hturl, Bool.not_false, if_true]] at hj
      rcases ih su sh n acc i j hj with h | ⟨q, hq, hqt, hqu⟩
      · exact Or.inl h
      · exact Or.inr ⟨q, List.mem_cons_of_mem _ hq, hqt, hqu⟩
    | true =>
      simp only [transform_step, hturl, Bool.not_true, Bool.false_eq_true, if_false] at hj
      simp only [urlOf_eq, transformHash_eq] at hj
      cases hc : su.contains (urlOf p) || sh.contains (transformHash p) with
      | true =>
        rw [if_pos hc] at hj
        rcases ih su sh n acc i j hj with h | ⟨q, hq, hqt, hqu⟩
        · exact Or.inl h
        · exact Or.inr ⟨q, List.mem_cons_of_mem _ hq, hqt, hqu⟩
      | false =>
        rw [if_neg (by simp only [hc]; exact Bool.false_ne_true)] at hj
        rcases ih _ _ _ _ _ j hj with h | ⟨q, hq, hqt, hqu⟩
        · rcases List.mem_append.mp h with h | h
          · exact Or.inl h
          · simp only [List.mem_singleton] at h
            subst h
            exact Or.inr ⟨p, List.mem_cons_self _ _, hturl, rfl⟩
        · exact Or.inr ⟨q, List.mem_cons_of_mem _ hq, hqt, hqu⟩

/-- C7 counterexample: a batch of three payloads with pairwise-distinct
content tuples, every URL truthy, and exactly one URL value repeated once —
the claim as stated demands `N − 1 = 2` created Jobs, but transform creates
only 1: the first and third payloads’ tuples `(title "a|", company "b")`
and `(title "a", company "|b")` are distinct, yet `job_hash` joins the
normalized fields with an unescaped `|`, so both have the pre-image
`a||b||` and thus literally the same SHA-256 digest, and the third payload
is skipped as a seen hash. -/
theorem transform_distinct_tuples_counterexample :
    (c7collide.map contentTuple).Nodup
      ∧ (∀ p ∈ c7collide, truthy (pget p "url") = true)
      ∧ (c7collide.map urlOf).dedup.length + 1 = c7collide.length
      ∧ transformHash (c7collide.getD 0 []) = transformHash (c7collide.getD 2 [])
      ∧ (transform_jobs [] c7collide).1 = 1
      ∧ c7collide.length - 1 = 2 := by
  decide

/-- C7 (amended): transform deduplicates by URL and skips URL-less records.
(1) For a batch of payloads, each with a truthy URL and pairwise-distinct
secondary content hashes — distinct-hash, not the original claim's
distinct-tuple, since `job_hash` joins fields with an unescaped `|` and is
not injective on tuples (refuted separately) — in which the URLs take
exactly `N − 1` distinct values (one URL repeated once, the rest unique),
transform on an empty jobs table creates exactly `N − 1` rows.
(2) Transform preserves pairwise distinctness of stored job URLs and of
stored content hashes, so after any sequence of calls no two jobs share a
URL or a hash.  (3) Every row transform ever adds carries the URL of some
payload whose URL was truthy — a raw record without a URL never produces a
Job. -/
theorem transform_jobs_url_dedup :
    (∀ ps : List Payload,
        (∀ p ∈ ps, truthy (pget p "url") = true) →
        (ps.map transformHash).Nodup →
        (ps.map urlOf).dedup.length + 1 = ps.length →
        (transform_jobs [] ps).1 = ps.length - 1)
      ∧ (∀ (jobs : List Job) (ps : List Payload),
          (seedUrls jobs).Nodup → (seedHashes jobs).Nodup →
          (seedUrls (transform_jobs jobs ps).2).Nodup
            ∧ (seedHashes (transform_jobs jobs ps).2).Nodup)
      ∧ (∀ (jobs : List Job) (ps : List Payload),
          ∀ j ∈ (transform_jobs jobs ps).2,
            j ∈ jobs ∨ ∃ p ∈ ps, truthy (pget p "url") = true ∧ j.url = some (urlOf p)) := by
  refine ⟨?_, ?_, ?_⟩
  · intro ps hurl hnd hded
    have h := transform_step_count ps [] [] 1 [] 0 hurl (fun p _ => List.not_mem_nil _) hnd
    have hj : transform_jobs [] ps = transform_step [] [] 1 [] 0 ps := rfl
    rw [hj, h]
    simp only [List.toFinset_nil, Finset.sdiff_empty]
    rw [List.card_toFinset]
    omega
  · intro jobs ps h1 h2
    have hj : transform_jobs jobs ps
        = transform_step (seedUrls jobs) (seedHashes jobs)
            ((jobs.filterMap fun j => j.id).foldr max 0 + 1) jobs 0 ps := rfl
    rw [hj]
    exact transform_step_nodup ps (seedUrls jobs) (seedHashes jobs) _ jobs 0
      (fun u hu => hu) (fun h hh => hh) h1 h2
  · intro jobs ps j hj
    have hjeq : transform_jobs jobs ps
        = transform_step (seedUrls jobs) (seedHashes jobs)
            ((jobs.filterMap fun j => j.id).foldr max 0 + 1) jobs 0 ps := rfl
    rw [hjeq] at hj
    exact transform_step_provenance ps (seedUrls jobs) (seedHashes jobs) _ jobs 0 j hj

/-- C7 witness: three payloads, one URL repeated, distinct hashes — exactly
two jobs created. -/
theorem transform_jobs_url_dedup_witness :
    (transform_jobs [] c7payloads).1 = c7payloads.length - 1 :=
  transform_jobs_url_dedup.1 c7payloads (by decide) (by decide) (by decide)

/-- Helper: the skill-insertion inner loop only appends, so existing rows stay
present. -/
theorem skills_inner_mono (ss : List String) :
    ∀ (pairs : List JobSkill) (n i : Nat) (x : JobSkill),
      x ∈ pairs → x ∈ (skills_inner pairs n i ss).2 := by
  induction ss with
  | nil => intro pairs n i x hx; simpa [skills_inner] using hx
  | cons s rest ih =>
    intro pairs n i x hx
    simp only [skills_inner]
    cases hc : pairs.contains { job_id := i, skill := s } with
    | true =>
      simp only [hc, if_true]
      exact ih pairs n i x hx
    | false =>
      simp only [hc, Bool.false_eq_true, if_false]
      exact ih _ _ _ x (List.mem_append_left _ hx)

/-- Helper: after the inner loop every `(i, s)` for `s` in the list is
present. -/
theorem skills_inner_complete (ss : List String) :
    ∀ (pairs : List JobSkill) (n i : Nat) (s : String),
      s ∈ ss → ({ job_id := i, skill := s } : JobSkill) ∈ (skills_inner pairs n i ss).2 := by
  induction ss with
  | nil => intro pairs n i s hs; exact absurd hs (List.not_mem_nil _)
  | cons s0 rest ih =>
    intro pairs n i s hs
    simp only [skills_inner]
    rcases List.mem_cons.mp hs with rfl | hs
    · cases hc : pairs.contains { job_id := i, skill := s } with
      | true =>
        simp only [hc, if_true]
        exact skills_inner_mono rest pairs n i _ (by simpa using hc)
      | false =>
        simp only [hc, Bool.false_eq_true, if_false]
        exact skills_inner_mono rest _ _ _ _ (List.mem_append_right _ (List.mem_singleton.mpr rfl))
    · cases hc : pairs.contains { job_id := i, skill := s0 } with
      | true =>
        simp only [hc, if_true]
        exact ih pairs n i s hs
      | false =>
        simp only [hc, Bool.false_eq_true, if_false]
        exact ih _ _ _ s hs

/-- Helper: the outer loop only appends. -/
theorem skills_step_mono (jobs : List Job) :
    ∀ (pairs : List JobSkill) (n : Nat) (x : JobSkill),
      x ∈ pairs → x ∈ (skills_step pairs n jobs).2 := by
  induction jobs with
  | nil => intro pairs n x hx; simpa [skills_step] using hx
  | cons j rest ih =>
    intro pairs n x hx
    simp only [skills_step]
    cases j.id with
    | none => exact ih pairs n x hx
    | some i => exact ih _ _ x (skills_inner_mono _ pairs n i x hx)

/-- Helper: after `skills_step`, every pair derivable from the processed jobs
is present. -/
theorem skills_step_complete (jobs : List Job) :
    ∀ (pairs : List JobSkill) (n : Nat),
      ∀ j ∈ jobs, ∀ i, j.id = some i → ∀ s ∈ extract_skills j.description,
        ({ job_id := i, skill := s } : JobSkill) ∈ (skills_step pairs n jobs).2 := by
  induction jobs with
  | nil => intro pairs n j hj; exact absurd hj (List.not_mem_nil _)
  | cons j0 rest ih =>
    intro pairs n j hj i hi s hs
    rcases List.mem_cons.mp hj with rfl | hj
    · simp only [skills_step, hi]
      exact skills_step_mono rest _ _ _ (skills_inner_complete _ pairs n i s hs)
    · simp only [skills_step]
      cases j0.id with
      | none => exact ih pairs n j hj i hi s hs
      | some i0 => exact ih _ _ j hj i hi s hs

/-- Helper: when every listed skill pair is already present, the inner loop
inserts nothing and leaves the table unchanged. -/
theorem skills_inner_noop (ss : List String) :
    ∀ (pairs : List JobSkill) (n i : Nat),
      (∀ s ∈ ss, ({ job_id := i, skill := s } : JobSkill) ∈ pairs) →
      skills_inner pairs n i ss = (n, pairs) := by
  induction ss with
  | nil => intro pairs n i _; rfl
  | cons s rest ih =>
    intro pairs n i h
    have hc : pairs.contains { job_id := i, skill := s } = true := by
      simpa using h s (List.mem_cons_self _ _)
    simp only [skills_inner, hc, if_true]
    exact ih pairs n i fun q hq => h q (List.mem_cons_of_mem _ hq)

/-- Helper: when every derivable pair is already present, the outer loop
inserts nothing. -/
theorem skills_step_noop (jobs : List Job) :
    ∀ (pairs : List JobSkill) (n : Nat),
      (∀ j ∈ jobs, ∀ i, j.id = some i → ∀ s ∈ extract_skills j.description,
        ({ job_id := i, skill := s } : JobSkill) ∈ pairs) →
      skills_step pairs n jobs = (n, pairs) := by
  induction jobs with
  | nil => intro pairs n _; rfl
  | cons j rest ih =>
    intro pairs n h
    simp only [skills_step]
    cases hid : j.id with
    | none => exact ih pairs n fun q hq => h q (List.mem_cons_of_mem _ hq)
    | some i =>
      dsimp only
      rw [skills_inner_noop _ pairs n i
        (fun s hs => h j (List.mem_cons_self _ _) i hid s hs)]
      exact ih pairs n fun q hq => h q (List.mem_cons_of_mem _ hq)

/-- Helper: insert counting for the inner loop. -/
theorem skills_inner_count (ss : List String) :
    ∀ (pairs : List JobSkill) (n i : Nat),
      (skills_inner pairs n i ss).1 + pairs.length
        = n + (skills_inner pairs n i ss).2.length := by
  induction ss with
  | nil => intro pairs n i; rfl
  | cons s rest ih =>
    intro pairs n i
    simp only [skills_inner]
    cases hc : pairs.contains { job_id := i, skill := s } with
    | true =>
      simp only [hc, if_true]
      exact ih pairs n i
    | false =>
      simp only [hc, Bool.false_eq_true, if_false]
      have := ih (pairs ++ [{ job_id := i, skill := s }]) (n + 1) i
      simp only [List.length_append, List.length_singleton] at this
      omega

/-- Helper: insert counting for the outer loop. -/
theorem skills_step_count (jobs : List Job) :
    ∀ (pairs : List JobSkill) (n : Nat),
      (skills_step pairs n jobs).1 + pairs.length
        = n + (skills_step pairs n jobs).2.length := by
  induction jobs with
  | nil => intro pairs n; rfl
  | cons j rest ih =>
    intro pairs n
    simp only [skills_step]
    cases j.id with
    | none => exact ih pairs n
    | some i =>
      dsimp only
      have h1 := skills_inner_count (extract_skills j.description) pairs n i
      have h2 := ih (skills_inner pairs n i (extract_skills j.description)).2
        (skills_inner pairs n i (extract_skills j.description)).1
      omega

/-- Helper: the inner loop preserves distinctness of the pair table. -/
theorem skills_inner_nodup (ss : List String) :
    ∀ (pairs : List JobSkill) (n i : Nat),
      pairs.Nodup → (skills_inner pairs n i ss).2.Nodup := by
  induction ss with
  | nil => intro pairs n i h; simpa [skills_inner] using h
  | cons s rest ih =>
    intro pairs n i h
    simp only [skills_inner]
    cases hc : pairs.contains { job_id := i, skill := s } with
    | true =>
      simp only [hc, if_true]
      exact ih pairs n i h
    | false =>
      simp only [hc, Bool.false_eq_true, if_false]
      refine ih _ _ _ (List.Nodup.append h (List.nodup_singleton _) ?_)
      intro a ha hb
      simp only [List.mem_singleton] at hb
      subst hb
      exact absurd (by simpa using ha) (by simpa using hc)

/-- Helper: the outer loop preserves distinctness of the pair table. -/
theorem skills_step_nodup (jobs : List Job) :
    ∀ (pairs : List JobSkill) (n : Nat),
      pairs.Nodup → (skills_step pairs n jobs).2.Nodup := by
  induction jobs with
  | nil => intro pairs n h; simpa [skills_step] using h
  | cons j rest ih =>
    intro pairs n h
    simp only [skills_step]
    cases j.id with
    | none => exact ih pairs n h
    | some i => exact ih _ _ (skills_inner_nodup _ pairs n i h)

/-- C8: skill extraction is additive and idempotent.  (1) When some job with
an assigned id has a description matching at least one skill pattern, the
first extraction run over an empty pair table inserts a positive number of
pairs.  (2) Immediately re-running extraction over the resulting table with
the same jobs inserts exactly 0 and leaves the table unchanged.  (3) The
extraction never introduces duplicate `(job_id, skill)` pairs: distinctness of
the table is preserved by every run, hence holds after any sequence of
runs. -/
theorem extract_skills_idempotent_additive :
    (∀ jobs : List Job,
        (∃ j ∈ jobs, (∃ i, j.id = some i) ∧ extract_skills j.description ≠ []) →
        0 < (extract_skills_for_jobs [] jobs).1)
      ∧ (∀ (pairs : List JobSkill) (jobs : List Job),
          extract_skills_for_jobs (extract_skills_for_jobs pairs jobs).2 jobs
            = (0, (extract_skills_for_jobs pairs jobs).2))
      ∧ (∀ (pairs : List JobSkill) (jobs : List Job),
          pairs.Nodup → (extract_skills_for_jobs pairs jobs).2.Nodup) := by
  refine ⟨?_, ?_, ?_⟩
  · intro jobs h
    obtain ⟨j, hj, ⟨i, hi⟩, hne⟩ := h
    obtain ⟨s, hs⟩ := List.exists_mem_of_ne_nil _ hne
    have hmem := skills_step_complete jobs [] 0 j hj i hi s hs
    have hcount := skills_step_count jobs [] 0
    have hlen : 0 < (skills_step [] 0 jobs).2.length :=
      List.length_pos.mpr (List.ne_nil_of_mem hmem)
    have : extract_skills_for_jobs [] jobs = skills_step [] 0 jobs := rfl
    rw [this]
    simp only [List.length_nil] at hcount
    omega
  · intro pairs jobs
    exact skills_step_noop jobs (extract_skills_for_jobs pairs jobs).2 0
      fun j hj i hi s hs => skills_step_complete jobs pairs 0 j hj i hi s hs
  · intro pairs jobs h
    exact skills_step_nodup jobs pairs 0 h

/-- C8 witness: one job whose description mentions Python and AWS — the first
run inserts a positive number of pairs. -/
theorem extract_skills_idempotent_additive_witness :
    0 < (extract_skills_for_jobs [] [c8job]).1 :=
  extract_skills_idempotent_additive.1 [c8job]
    ⟨c8job, List.mem_singleton.mpr rfl, ⟨1, rfl⟩, by decide⟩

/-- C9 counterexample: the Remotive adapter has no local error handling — a
transport-level failure during fetch propagates to the caller as an exception
instead of an empty result, so the claim that every adapter catches such
failures is false. -/
theorem fetch_remotive_propagates_network_error :
    fetch_remotive_jobs (fun s => s) 100 (HttpResp.netErr "connection refused")
      = Except.error "connection refused" := rfl

/-- Helper: attempt counting for the Arbeitnow page-fetch loop. -/
theorem fetchPageGo_bound (rem : Nat) :
    ∀ (responses : Nat → HttpResp) (k : Nat),
      (fetchPageGo responses k rem).2 ≤ k + rem := by
  induction rem with
  | zero =>
    intro responses k
    simp [fetchPageGo]
  | succ r ih =>
    intro responses k
    simp only [fetchPageGo]
    cases responses k with
    | netErr m => simp
    | ok st body =>
      cases hc : st == 429 with
      | true =>
        simp only [hc, if_true]
        have := ih responses (k + 1)
        omega
      | false =>
        simp only [hc, Bool.false_eq_true, if_false]
        by_cases h4 : 400 ≤ st
        · simp [h4]
        · simp only [h4, if_false]
          cases body <;> simp

/-- Helper: a permanently rate-limited page exhausts all retries and yields
`None`. -/
theorem fetchPageGo_all429 (rem : Nat) :
    ∀ (responses : Nat → HttpResp) (k : Nat),
      (∀ n, is429 (responses n) = true) →
      fetchPageGo responses k rem = (none, k + rem) := by
  induction rem with
  | zero => intro responses k _; rfl
  | succ r ih =>
    intro responses k h
    have h429 := h k
    simp only [fetchPageGo]
    cases hr : responses k with
    | netErr m => rw [hr] at h429; simp [is429] at h429
    | ok st body =>
      rw [hr] at h429
      simp only [is429] at h429
      simp only [h429, if_true]
      rw [ih responses (k + 1) h]
      refine congrArg (Prod.mk none) ?_
      omega

/-- C9 (amended): failure containment holds for the Arbeitnow adapter, not for
every adapter.  (1) `_fetch_page_with_retry` issues at most `MAX_RETRIES`
HTTP requests per page; (2) a page that answers 429 on every attempt is given
up after exactly `MAX_RETRIES` backed-off attempts, yielding `None` rather
than an exception; (3) a network error and (4) a non-429 error status or
malformed JSON are caught locally and yield `None` after one request;
(5) when page 1 succeeds and page 2 then fails, `fetch_arbeitnow_jobs`
returns the page-1 payloads instead of raising; while (6)–(8) the Remotive
adapter propagates a network error, a rate-limit response and malformed JSON
to its caller as exceptions. -/
theorem adapter_failure_containment :
    (∀ responses : Nat → HttpResp, (fetch_page_with_retry responses).2 ≤ MAX_RETRIES)
      ∧ (∀ responses : Nat → HttpResp, (∀ n, is429 (responses n) = true) →
          fetch_page_with_retry responses = (none, MAX_RETRIES))
      ∧ (∀ (responses : Nat → HttpResp) (m : String),
          responses 0 = HttpResp.netErr m → fetch_page_with_retry responses = (none, 1))
      ∧ (∀ (responses : Nat → HttpResp) (st : Nat),
          responses 0 = HttpResp.ok st none → (st == 429) = false →
          fetch_page_with_retry responses = (none, 1))
      ∧ (∀ (md5hex : String → String) (tsToIso : Int → Option String),
          fetch_arbeitnow_jobs md5hex tsToIso c9responses none 100 = [c9payload md5hex])
      ∧ (∀ (u : String → String) (lim : Nat) (m : String),
          fetch_remotive_jobs u lim (HttpResp.netErr m) = Except.error m)
      ∧ (∀ (u : String → String) (lim : Nat) (b : Option AJson),
          fetch_remotive_jobs u lim (HttpResp.ok 429 b) = Except.error ("HTTP " ++ toString 429))
      ∧ (∀ (u : String → String) (lim : Nat),
          fetch_remotive_jobs u lim (HttpResp.ok 200 none) = Except.error "invalid JSON") := by
  refine ⟨?_, ?_, ?_, ?_, ?_, ?_, ?_, ?_⟩
  · intro responses
    exact fetchPageGo_bound MAX_RETRIES responses 0
  · intro responses h
    exact fetchPageGo_all429 MAX_RETRIES responses 0 h
  · intro responses m h
    simp only [fetch_page_with_retry, MAX_RETRIES, fetchPageGo, h]
  · intro responses st h hne
    simp only [fetch_page_with_retry, MAX_RETRIES, fetchPageGo, h, hne, Bool.false_eq_true,
      if_false]
    by_cases h4 : 400 ≤ st
    · simp [h4]
    · simp [h4]
  · intro md5hex tsToIso
    rfl
  · intro u lim m
    rfl
  · intro u lim b
    rfl
  · intro u lim
    rfl

/-- C9 witness: the containment conjuncts applied to concrete oracles — a
network error on the first attempt yields `None` after one request, and an
always-429 oracle yields `None` after `MAX_RETRIES` requests. -/
theorem adapter_failure_containment_witness :
    fetch_page_with_retry (fun _ => HttpResp.netErr "boom") = (none, 1)
      ∧ fetch_page_with_retry (fun _ => HttpResp.ok 429 none) = (none, MAX_RETRIES) :=
  ⟨adapter_failure_containment.2.2.1 (fun _ => HttpResp.netErr "boom") "boom" rfl,
    adapter_failure_containment.2.1 (fun _ => HttpResp.ok 429 none) (fun _ => rfl)⟩
